import Mathlib

/-!
Verification of the `unturned-data` repository against its design
specification.

The definitions below are a shallow embedding of the Python sources:

* `src/unturned_data/dat_parser.py`   — the `.dat` text-format parser;
* `src/unturned_data/map_resolver.py` — spawn-table resolution;
* `src/unturned_data/exporter.py`     — GUID synthesis and blueprint
  reference resolution;
* `src/unturned_data/formatters/crafting_fmt.py` — the crafting-graph
  builder (with the reference-token parser `_parse_item_ref`).

Python strings are modelled as `List Char` where character-level scanning
matters (the parser) and as `String` elsewhere; Python `int` is `Int`
(arbitrary precision, like Python); Python dicts are insertion-ordered
association lists whose update-in-place semantics is `assocSet` below;
Python functions that can raise are embedded as `Except`-valued functions.
Unbounded loops over a shared line cursor are embedded with an explicit
fuel parameter; theorems below show the fuel chosen by the entry points is
always sufficient, so the embedding never truncates a run the Python code
would finish.
-/

/-- Characters treated as whitespace by Python `str.strip` (ASCII range;
the source corpus is ASCII at the positions the claims touch). -/
def isPySpace (c : Char) : Bool :=
  c = ' ' ∨ c = '\t' ∨ c = '\n' ∨ c = '\r' ∨ c = '\x0b' ∨ c = '\x0c'

/-- Python `str.lstrip()`. -/
def pyLstrip (l : List Char) : List Char := l.dropWhile isPySpace

/-- Python `str.rstrip()`. -/
def pyRstrip (l : List Char) : List Char := (l.reverse.dropWhile isPySpace).reverse

/-- Python `str.strip()`. -/
def pyStrip (l : List Char) : List Char := pyRstrip (pyLstrip l)

/-- ASCII lower-casing of one character (Python `str.lower` restricted to
ASCII, which is all the claims exercise). -/
def lowerChar (c : Char) : Char :=
  if 'A' ≤ c ∧ c ≤ 'Z' then Char.ofNat (c.toNat + 32) else c

/-- ASCII lower-casing of a character list. -/
def lowerList (l : List Char) : List Char := l.map lowerChar

/-- ASCII lower-casing of a string. -/
def pyLower (s : String) : String := ⟨lowerList s.data⟩

/-- Split a list at the first occurrence of character `c`: returns the
part strictly before and the part strictly after it. -/
def splitOnceChar (c : Char) : List Char → Option (List Char × List Char)
  | [] => none
  | x :: rest =>
    if x = c then some ([], rest)
    else (splitOnceChar c rest).map (fun p => (x :: p.1, p.2))

/-- Scan of `_strip_comment`: returns the prefix before an unquoted `//`,
or `none` when the line holds no comment.  The boolean is the
`in_quote` state. -/
def findComment : Bool → List Char → Option (List Char)
  | _, [] => none
  | q, c :: rest =>
    if c = '"' then (findComment (!q) rest).map (c :: ·)
    else if c = '/' ∧ q = false ∧ rest.head? = some '/' then some []
    else (findComment q rest).map (c :: ·)

/-- `_strip_comment` from `dat_parser.py`: strip a trailing `//` comment,
respecting double-quoted spans; the kept prefix is right-stripped, a line
with no comment is returned unchanged. -/
def strip_comment (l : List Char) : List Char :=
  match findComment false l with
  | some pre => pyRstrip pre
  | none => l

/-- Digit runs as accepted by Python `int`: digits with single
underscores strictly between digits. -/
def digitsUnd : List Char → Bool
  | [] => false
  | c :: rest => c.isDigit && digitsUndGo rest
where
  digitsUndGo : List Char → Bool
    | [] => true
    | '_' :: rest =>
      match rest with
      | [] => false
      | d :: rs => d.isDigit && digitsUndGo rs
    | d :: rs => d.isDigit && digitsUndGo rs

/-- Numeric value of a digit run (underscores ignored). -/
def digitsVal (l : List Char) : Nat :=
  (l.filter (· ≠ '_')).foldl (fun acc c => acc * 10 + (c.toNat - '0'.toNat)) 0

/-- Python `int(s)` on a string: strips whitespace, allows one sign,
then a digit run; `none` models the `ValueError` (which
`_coerce_value` catches). -/
def pyInt (l : List Char) : Option Int :=
  let s := pyStrip l
  match s with
  | '+' :: rest => if digitsUnd rest then some (digitsVal rest) else none
  | '-' :: rest => if digitsUnd rest then some (-(digitsVal rest : Int)) else none
  | _ => if digitsUnd s then some (digitsVal s) else none

/-- Mantissa shapes accepted by Python `float`: `digits`, `digits.`,
`.digits` or `digits.digits`. -/
def floatMantissa (l : List Char) : Bool :=
  match splitOnceChar '.' l with
  | none => digitsUnd l
  | some (b, a) =>
    decide ('.' ∉ a) &&
      ((b.isEmpty || digitsUnd b) && (a.isEmpty || digitsUnd a) &&
        !(b.isEmpty && a.isEmpty))

/-- Exponent part accepted by Python `float`: optional sign then digits. -/
def floatExponent (l : List Char) : Bool :=
  match l with
  | '+' :: rest => digitsUnd rest
  | '-' :: rest => digitsUnd rest
  | _ => digitsUnd l

/-- Whether Python `float(s)` accepts `s` (the claims only need
acceptance, never the value). -/
def pyFloatAccepts (l : List Char) : Bool :=
  let s := lowerList (pyStrip l)
  let t := match s with
    | '+' :: rest => rest
    | '-' :: rest => rest
    | _ => s
  decide (t = "inf".data) || decide (t = "infinity".data) ||
    decide (t = "nan".data) ||
    (match splitOnceChar 'e' t with
     | none => floatMantissa t
     | some (m, e) => floatMantissa m && floatExponent e)

/-- The parser's output tree (`dict` / `list` / scalar values).  Mappings
are insertion-ordered association lists; float scalars keep the source
text, whose numeric value no claim consumes. -/
inductive RawNode where
  | vStr (s : List Char)
  | vInt (n : Int)
  | vFloat (s : List Char)
  | vBool (b : Bool)
  | vMap (m : List (List Char × RawNode))
  | vArr (l : List RawNode)

/-- Insertion-ordered dict write `m[k] = v`: an existing key keeps its
position and gets the new value, a new key goes to the end. -/
def assocSet {α β : Type} [DecidableEq α] : List (α × β) → α → β → List (α × β)
  | [], k, v => [(k, v)]
  | (k', v') :: rest, k, v =>
    if k' = k then (k', v) :: rest else (k', v') :: assocSet rest k v

/-- `_coerce_value` from `dat_parser.py`: strip one layer of outer double
quotes, then try boolean, integer, float, falling back to the string. -/
def coerce_value (val : List Char) : RawNode :=
  if val = [] then .vStr []
  else
    let v :=
      if 2 ≤ val.length ∧ val.head? = some '"' ∧ val.getLast? = some '"'
      then (val.drop 1).dropLast else val
    if lowerList v = "true".data then .vBool true
    else if lowerList v = "false".data then .vBool false
    else match pyInt v with
      | some n => .vInt n
      | none => if pyFloatAccepts v then .vFloat v else .vStr v

/-- Errors of the embedded parser: `unclosedQuote` models the uncaught
`ValueError` raised by `line.index` in `_split_key_value` when a line
starts with a double quote that never closes; `fuelOut` marks fuel
exhaustion, shown unreachable below. -/
inductive DatErr where
  | unclosedQuote
  | fuelOut
deriving DecidableEq

/-- Split at the first space or tab (the only separators
`_split_key_value` looks for). -/
def findSpaceSplit : List Char → Option (List Char × List Char)
  | [] => none
  | c :: rest =>
    if c = ' ' ∨ c = '\t' then some ([], c :: rest)
    else (findSpaceSplit rest).map (fun p => (c :: p.1, p.2))

/-- `_split_key_value` from `dat_parser.py`.  A quoted key with no
closing quote raises (`.error .unclosedQuote`); otherwise the key is the
run before the first space/tab and the value, when present, is the
stripped remainder. -/
def split_key_value (line : List Char) : Except DatErr (List Char × Option (List Char)) :=
  let l := pyStrip line
  match l with
  | [] => .ok ([], none)
  | c :: rest =>
    if c = '"' then
      match splitOnceChar '"' rest with
      | none => .error .unclosedQuote
      | some (key, after) =>
        let r := pyStrip after
        .ok (key, if r = [] then none else some r)
    else
      match findSpaceSplit l with
      | none => .ok (l, none)
      | some (key, after) =>
        let r := pyStrip after
        .ok (key, if r = [] then none else some r)

/-- `_next_content_line` from `dat_parser.py`, in suffix form: the first
line that is non-blank after comment stripping, together with the lines
after it. -/
def next_content_line : List (List Char) → Option (List Char × List (List Char))
  | [] => none
  | l :: rest =>
    let s := pyStrip (strip_comment l)
    if s = [] then next_content_line rest else some (s, rest)

mutual

/-- `_parse_mapping` from `dat_parser.py` (accumulator + fuel form).
The accumulator is the dict built so far; the returned list of lines is
what follows the block's closing bracket. -/
def parse_mapping_aux : Nat → List (List Char × RawNode) → List (List Char) →
    Except DatErr (List (List Char × RawNode) × List (List Char))
  | 0, _, _ => .error .fuelOut
  | _ + 1, acc, [] => .ok (acc, [])
  | fuel + 1, acc, l :: rest =>
    let line := pyStrip (strip_comment l)
    if line = [] then parse_mapping_aux fuel acc rest
    else if line = "\x7d".data ∨ line = "]".data then .ok (acc, rest)
    else
      match split_key_value line with
      | .error e => .error e
      | .ok (key, value) =>
        if key = [] then parse_mapping_aux fuel acc rest
        else
          match value with
          | some v =>
            if v = "[".data then
              match parse_array_aux fuel [] rest with
              | .error e => .error e
              | .ok (arr, rest') =>
                parse_mapping_aux fuel (assocSet acc key (.vArr arr)) rest'
            else if v = "\x7b".data then
              match parse_mapping_aux fuel [] rest with
              | .error e => .error e
              | .ok (m, rest') =>
                parse_mapping_aux fuel (assocSet acc key (.vMap m)) rest'
            else parse_mapping_aux fuel (assocSet acc key (coerce_value v)) rest
          | none =>
            match next_content_line rest with
            | some (nl, after) =>
              if nl = "[".data then
                match parse_array_aux fuel [] after with
                | .error e => .error e
                | .ok (arr, rest') =>
                  parse_mapping_aux fuel (assocSet acc key (.vArr arr)) rest'
              else if nl = "\x7b".data then
                match parse_mapping_aux fuel [] after with
                | .error e => .error e
                | .ok (m, rest') =>
                  parse_mapping_aux fuel (assocSet acc key (.vMap m)) rest'
              else parse_mapping_aux fuel (assocSet acc key (.vBool true)) rest
            | none => parse_mapping_aux fuel (assocSet acc key (.vBool true)) rest

/-- `_parse_array` from `dat_parser.py` (accumulator + fuel form). -/
def parse_array_aux : Nat → List RawNode → List (List Char) →
    Except DatErr (List RawNode × List (List Char))
  | 0, _, _ => .error .fuelOut
  | _ + 1, acc, [] => .ok (acc, [])
  | fuel + 1, acc, l :: rest =>
    let line := pyStrip (strip_comment l)
    if line = [] then parse_array_aux fuel acc rest
    else if line = "]".data then .ok (acc, rest)
    else if line = "\x7b".data then
      match parse_mapping_aux fuel [] rest with
      | .error e => .error e
      | .ok (m, rest') => parse_array_aux fuel (acc ++ [.vMap m]) rest'
    else if line.head? = some '{' ∧ line.getLast? = some '}' then
      let inner := pyStrip ((line.drop 1).dropLast)
      match parse_mapping_aux fuel [] [inner] with
      | .error e => .error e
      | .ok (m, _) => parse_array_aux fuel (acc ++ [.vMap m]) rest
    else parse_array_aux fuel (acc ++ [coerce_value line]) rest

end

/-- Python `str.splitlines` restricted to the line breaks the corpus
uses (`\n`, `\r`, `\r\n`); no trailing empty line is produced. -/
def splitLinesAux : List Char → List Char → List (List Char)
  | acc, [] => [acc.reverse]
  | acc, '\r' :: '\n' :: rest =>
    acc.reverse :: (if rest.isEmpty then [] else splitLinesAux [] rest)
  | acc, '\n' :: rest =>
    acc.reverse :: (if rest.isEmpty then [] else splitLinesAux [] rest)
  | acc, '\r' :: rest =>
    acc.reverse :: (if rest.isEmpty then [] else splitLinesAux [] rest)
  | acc, c :: rest => splitLinesAux (c :: acc) rest

/-- Python `str.splitlines` (empty input gives no lines). -/
def splitLines (l : List Char) : List (List Char) :=
  if l.isEmpty then [] else splitLinesAux [] l

/-- The line list `parse_dat` works on: strip a leading BOM, split into
lines. -/
def datLines (text : String) : List (List Char) :=
  let chars := if text.data.head? = some (Char.ofNat 0xFEFF) then text.data.tail
    else text.data
  splitLines chars

/-- `parse_dat` from `dat_parser.py`: strip a leading BOM, split into
lines and parse the top-level mapping.  The fuel `lines.length + 2` is
proven sufficient below. -/
def parse_dat (text : String) : Except DatErr (List (List Char × RawNode)) :=
  (parse_mapping_aux ((datLines text).length + 2) [] (datLines text)).map Prod.fst

/-- A processed line whose key does not open an unterminated double
quote: if the (doubly) stripped line starts with `"`, a closing `"`
exists.  This is exactly the condition under which `_split_key_value`
cannot raise. -/
def keyQuoteOk (s : List Char) : Prop :=
  s.head? = some '"' → '"' ∈ s.tail

instance (s : List Char) : Decidable (keyQuoteOk s) := by
  unfold keyQuoteOk; infer_instance

/-- Quote safety of one raw input line, in every context the parser can
process it: as a mapping/array line, and — when it is a braced inline
object inside an array — its bracket-stripped interior as well. -/
def lineSafe (l : List Char) : Prop :=
  let s := pyStrip (strip_comment l)
  keyQuoteOk (pyStrip (pyStrip (strip_comment l))) ∧
    (s.head? = some '{' → s.getLast? = some '}' →
      keyQuoteOk (pyStrip (pyStrip (strip_comment (pyStrip ((s.drop 1).dropLast))))))

instance (l : List Char) : Decidable (lineSafe l) := by
  unfold lineSafe; infer_instance

theorem split_key_value_err (line : List Char) (e : DatErr)
    (h : split_key_value line = .error e) : e = .unclosedQuote := by
  simp only [split_key_value] at h
  split at h
  · exact absurd h (by simp)
  · split at h
    · split at h
      · exact (Except.error.inj h).symm
      · exact absurd h (by simp)
    · split at h <;> exact absurd h (by simp)

theorem split_key_value_ok (line : List Char) (h : keyQuoteOk (pyStrip line)) :
    ∃ r, split_key_value line = .ok r := by
  simp only [split_key_value]
  split
  · exact ⟨_, rfl⟩
  · rename_i c rest heq
    split
    · rename_i hc
      subst hc
      have hm : '"' ∈ rest := by
        have := h
        rw [heq] at this
        simpa using this rfl
      match hs : splitOnceChar '"' rest with
      | some p =>
        obtain ⟨key, after⟩ := p
        exact ⟨_, rfl⟩
      | none =>
        exfalso
        clear h heq
        induction rest with
        | nil => simp at hm
        | cons x xs ihx =>
          rw [splitOnceChar] at hs
          by_cases hx : x = '"'
          · simp [hx] at hs
          · simp [hx] at hs hm
            rcases hm with hm | hm
            · exact hx hm.symm
            · cases hy : splitOnceChar '"' xs with
              | none => exact ihx hm hy
              | some p => rw [hy] at hs; simp at hs
    · split <;> exact ⟨_, rfl⟩

theorem next_content_line_suffix :
    ∀ (ls : List (List Char)) nl after,
      next_content_line ls = some (nl, after) → after <:+ ls := by
  intro ls
  induction ls with
  | nil => intro nl after h; simp [next_content_line] at h
  | cons l rest ih =>
    intro nl after h
    rw [next_content_line] at h
    split at h
    · exact (ih nl after h).trans (List.suffix_cons l rest)
    · simp at h
      exact h.2 ▸ List.suffix_cons l rest

/-- Structural bookkeeping: the lines a parsing call returns are a
suffix of the lines it was given (the Python cursor only moves
forward). -/
theorem parse_aux_suffix (fuel : Nat) :
    (∀ acc lines m rest, parse_mapping_aux fuel acc lines = .ok (m, rest) → rest <:+ lines)
    ∧ (∀ acc lines a rest, parse_array_aux fuel acc lines = .ok (a, rest) → rest <:+ lines) := by
  induction fuel with
  | zero =>
    constructor <;> intro acc lines m rest h <;>
      simp [parse_mapping_aux, parse_array_aux] at h
  | succ f ih =>
    constructor
    · intro acc lines m rest h
      match lines with
      | [] =>
        simp only [parse_mapping_aux, Except.ok.injEq, Prod.mk.injEq] at h
        exact h.2 ▸ List.suffix_rfl
      | l :: rs =>
        simp only [parse_mapping_aux] at h
        repeat' split at h
        all_goals
          first
          | (simp only [Except.ok.injEq, Prod.mk.injEq] at h
             obtain ⟨h1, h2⟩ := h
             exact h2 ▸ List.suffix_cons l rs)
          | (simp at h)
          | (exact (ih.1 _ _ _ _ h).trans (List.suffix_cons l rs))
          | (rename_i heq
             exact ((ih.1 _ _ _ _ h).trans ((ih.2 _ _ _ _ heq).trans (List.suffix_cons l rs))))
          | (rename_i heq
             exact ((ih.1 _ _ _ _ h).trans ((ih.1 _ _ _ _ heq).trans (List.suffix_cons l rs))))
          | (rename_i heq
             have hnc := next_content_line_suffix rs _ _ (by assumption)
             exact ((ih.1 _ _ _ _ h).trans (((ih.2 _ _ _ _ heq).trans hnc).trans (List.suffix_cons l rs))))
          | (rename_i heq
             have hnc := next_content_line_suffix rs _ _ (by assumption)
             exact ((ih.1 _ _ _ _ h).trans (((ih.1 _ _ _ _ heq).trans hnc).trans (List.suffix_cons l rs))))
    · intro acc lines a rest h
      match lines with
      | [] =>
        simp only [parse_array_aux, Except.ok.injEq, Prod.mk.injEq] at h
        exact h.2 ▸ List.suffix_rfl
      | l :: rs =>
        simp only [parse_array_aux] at h
        repeat' split at h
        all_goals
          first
          | (simp only [Except.ok.injEq, Prod.mk.injEq] at h
             obtain ⟨h1, h2⟩ := h
             exact h2 ▸ List.suffix_cons l rs)
          | (simp at h)
          | (exact (ih.2 _ _ _ _ h).trans (List.suffix_cons l rs))
          | (rename_i heq
             exact ((ih.2 _ _ _ _ h).trans ((ih.1 _ _ _ _ heq).trans (List.suffix_cons l rs))))

/-- A one-line mapping call (the inline-object case inside arrays)
finishes within fuel 2. -/
theorem parse_mapping_singleton_fuel (f : Nat) (inner : List Char) :
    parse_mapping_aux (f + 2) [] [inner] ≠ .error .fuelOut := by
  intro h
  simp only [parse_mapping_aux, parse_array_aux] at h
  repeat' split at h
  all_goals simp_all [next_content_line]
  all_goals
    rename_i heq
    exact absurd (split_key_value_err _ _ heq) (by simp)

/-- Fuel sufficiency: with fuel at least `lines.length + 2` neither
parser loop can run out of fuel, so the embedding never truncates a
parse the Python code would finish. -/
theorem parse_aux_fuel (fuel : Nat) :
    (∀ acc lines, lines.length + 2 ≤ fuel →
      parse_mapping_aux fuel acc lines ≠ .error .fuelOut)
    ∧ (∀ acc lines, lines.length + 2 ≤ fuel →
      parse_array_aux fuel acc lines ≠ .error .fuelOut) := by
  induction fuel with
  | zero => constructor <;> intro acc lines hlen <;> omega
  | succ f ih =>
    constructor
    · intro acc lines hlen h
      match lines with
      | [] => simp [parse_mapping_aux] at h
      | l :: rs =>
        have hrs : rs.length + 2 ≤ f := by
          simp only [List.length_cons] at hlen; omega
        simp only [parse_mapping_aux] at h
        repeat' split at h
        all_goals
          first
          | (simp at h; done)
          | (exact ih.1 _ _ hrs h)
          | (rename_i heq
             have he := split_key_value_err _ _ heq
             subst he
             simp at h
             done)
          | (rename_i e heq
             simp only [Except.error.injEq] at h
             subst h
             first
             | exact ih.1 _ _ hrs heq
             | exact ih.2 _ _ hrs heq
             | (have hnc := (next_content_line_suffix rs _ _ (by assumption)).length_le
                first
                | exact ih.1 _ _ (by omega) heq
                | exact ih.2 _ _ (by omega) heq))
          | (rename_i heq
             have hs := ((parse_aux_suffix f).2 _ _ _ _ heq).length_le
             exact ih.1 _ _ (by omega) h)
          | (rename_i heq
             have hs := ((parse_aux_suffix f).1 _ _ _ _ heq).length_le
             exact ih.1 _ _ (by omega) h)
          | (rename_i heq
             have hnc := (next_content_line_suffix rs _ _ (by assumption)).length_le
             have hs := ((parse_aux_suffix f).2 _ _ _ _ heq).length_le
             exact ih.1 _ _ (by omega) h)
          | (rename_i heq
             have hnc := (next_content_line_suffix rs _ _ (by assumption)).length_le
             have hs := ((parse_aux_suffix f).1 _ _ _ _ heq).length_le
             exact ih.1 _ _ (by omega) h)
    · intro acc lines hlen h
      match lines with
      | [] => simp [parse_array_aux] at h
      | l :: rs =>
        have hrs : rs.length + 2 ≤ f := by
          simp only [List.length_cons] at hlen; omega
        simp only [parse_array_aux] at h
        repeat' split at h
        all_goals
          first
          | (simp at h; done)
          | (exact ih.2 _ _ hrs h)
          | (rename_i e heq
             simp only [Except.error.injEq] at h
             subst h
             first
             | exact ih.1 _ _ hrs heq
             | (obtain ⟨f', rfl⟩ : ∃ f', f = f' + 2 := ⟨f - 2, by omega⟩
                exact parse_mapping_singleton_fuel f' _ heq))
          | (rename_i heq
             have hs := ((parse_aux_suffix f).1 _ _ _ _ heq).length_le
             exact ih.2 _ _ (by omega) h)

/-- A one-line mapping call succeeds within fuel 2 when the line's key
cannot raise the unterminated-quote error. -/
theorem parse_mapping_singleton_ok (f : Nat) (inner : List Char)
    (hq : keyQuoteOk (pyStrip (pyStrip (strip_comment inner)))) :
    ∃ r, parse_mapping_aux (f + 2) [] [inner] = .ok r := by
  obtain ⟨kv, hkv⟩ := split_key_value_ok (pyStrip (strip_comment inner)) hq
  simp only [parse_mapping_aux, parse_array_aux]
  repeat' split
  all_goals first
  | exact ⟨_, rfl⟩
  | (rename_i heq
     rw [heq] at hkv
     simp at hkv
     done)
  | (simp_all [next_content_line]; done)

/-- Success: when every line is quote-safe (`lineSafe`), both parser
loops return `.ok` — bracket nesting, malformed scalars and unterminated
blocks never fail. -/
theorem parse_aux_ok (fuel : Nat) :
    (∀ acc lines, lines.length + 2 ≤ fuel → (∀ l ∈ lines, lineSafe l) →
      ∃ r, parse_mapping_aux fuel acc lines = .ok r)
    ∧ (∀ acc lines, lines.length + 2 ≤ fuel → (∀ l ∈ lines, lineSafe l) →
      ∃ r, parse_array_aux fuel acc lines = .ok r) := by
  induction fuel with
  | zero => constructor <;> intro acc lines hlen <;> omega
  | succ f ih =>
    constructor
    · intro acc lines hlen hsafe
      match lines with
      | [] => exact ⟨_, rfl⟩
      | l :: rs =>
        have hrs : rs.length + 2 ≤ f := by
          simp only [List.length_cons] at hlen; omega
        have hsr : ∀ x ∈ rs, lineSafe x := fun x hx => hsafe x (List.mem_cons_of_mem l hx)
        have hskv := (hsafe l (List.mem_cons_self l rs)).1
        obtain ⟨kv, hkv⟩ := split_key_value_ok (pyStrip (strip_comment l)) hskv
        simp only [parse_mapping_aux]
        repeat' split
        all_goals first
        | exact ⟨_, rfl⟩
        | (exact ih.1 _ _ hrs hsr)
        | (rename_i heq
           rw [heq] at hkv
           simp at hkv
           done)
        | (rename_i heq
           first
           | (exfalso
              obtain ⟨r2, hr2⟩ := ih.1 [] rs hrs hsr
              rw [heq] at hr2
              simp at hr2
              done)
           | (exfalso
              obtain ⟨r2, hr2⟩ := ih.2 [] rs hrs hsr
              rw [heq] at hr2
              simp at hr2
              done)
           | (have hs := ((parse_aux_suffix f).1 _ _ _ _ heq).length_le
              exact ih.1 _ _ (by omega) fun x hx =>
                hsr x (((parse_aux_suffix f).1 _ _ _ _ heq).subset hx))
           | (have hs := ((parse_aux_suffix f).2 _ _ _ _ heq).length_le
              exact ih.1 _ _ (by omega) fun x hx =>
                hsr x (((parse_aux_suffix f).2 _ _ _ _ heq).subset hx)))
        | (rename_i heq
           have hnc := next_content_line_suffix rs _ _ (by assumption)
           have hncl := hnc.length_le
           first
           | (exfalso
              obtain ⟨r2, hr2⟩ := ih.1 [] _ (by omega) (fun x hx => hsr x (hnc.subset hx))
              rw [heq] at hr2
              simp at hr2
              done)
           | (exfalso
              obtain ⟨r2, hr2⟩ := ih.2 [] _ (by omega) (fun x hx => hsr x (hnc.subset hx))
              rw [heq] at hr2
              simp at hr2
              done)
           | (have hs := ((parse_aux_suffix f).1 _ _ _ _ heq).length_le
              exact ih.1 _ _ (by omega) fun x hx =>
                hsr x (hnc.subset (((parse_aux_suffix f).1 _ _ _ _ heq).subset hx)))
           | (have hs := ((parse_aux_suffix f).2 _ _ _ _ heq).length_le
              exact ih.1 _ _ (by omega) fun x hx =>
                hsr x (hnc.subset (((parse_aux_suffix f).2 _ _ _ _ heq).subset hx))))
    · intro acc lines hlen hsafe
      match lines with
      | [] => exact ⟨_, rfl⟩
      | l :: rs =>
        have hrs : rs.length + 2 ≤ f := by
          simp only [List.length_cons] at hlen; omega
        have hsr : ∀ x ∈ rs, lineSafe x := fun x hx => hsafe x (List.mem_cons_of_mem l hx)
        simp only [parse_array_aux]
        repeat' split
        all_goals first
        | exact ⟨_, rfl⟩
        | (exact ih.2 _ _ hrs hsr)
        | (rename_i heq
           first
           | (exfalso
              obtain ⟨r2, hr2⟩ := ih.1 [] rs hrs hsr
              rw [heq] at hr2
              simp at hr2
              done)
           | (exfalso
              obtain ⟨f', rfl⟩ : ∃ f', f = f' + 2 := ⟨f - 2, by omega⟩
              have hbr : (pyStrip (strip_comment l)).head? = some '{' ∧
                  (pyStrip (strip_comment l)).getLast? = some '}' := by assumption
              obtain ⟨r2, hr2⟩ := parse_mapping_singleton_ok f' _
                ((hsafe l (List.mem_cons_self l rs)).2 hbr.1 hbr.2)
              rw [heq] at hr2
              simp at hr2
              done)
           | (have hs := ((parse_aux_suffix f).1 _ _ _ _ heq).length_le
              exact ih.2 _ _ (by omega) fun x hx =>
                hsr x (((parse_aux_suffix f).1 _ _ _ _ heq).subset hx)))

/-- The double-slash sequence: only `//` (never a single `/`) can start
a comment. -/
def hasDoubleSlash (l : List Char) : Prop := ['/', '/'] <:+: l

instance (l : List Char) : Decidable (hasDoubleSlash l) := by
  unfold hasDoubleSlash; infer_instance

theorem findComment_none (l : List Char) (h : ¬ hasDoubleSlash l) :
    ∀ q, findComment q l = none := by
  induction l with
  | nil => intro q; rfl
  | cons c rest ih =>
    intro q
    have hrest : ¬ hasDoubleSlash rest := fun hr => h (List.infix_cons hr)
    rw [findComment]
    split
    · rw [ih hrest]; rfl
    · split
      · rename_i hc
        exfalso
        apply h
        obtain ⟨h1, _, h3⟩ := hc
        cases hr : rest with
        | nil => rw [hr] at h3; simp at h3
        | cons d rs =>
          rw [hr] at h3
          simp only [List.head?] at h3
          exact ⟨[], rs, by simp [h1, Option.some.inj h3]⟩
      · rw [ih hrest]; rfl

/-- A line starting a double-quoted key that never closes: the spec calls
this a malformed line that must degrade gracefully, but the code raises. -/
def c1BadInput : String := "\"abc"

/-- A document with an unterminated array and an unterminated nested
object: malformed bracket nesting, which the claim says is the only way
`parse` can fail. -/
def c1UnterminatedInput : String := "Key [\n1\n\x7b\nA 2"

/-- C1, counterexample: the claim says `parse` fails only on malformed
bracket nesting and that malformed scalar lines never raise; but the
single (bracket-balanced) line `"abc` — a double-quoted key that never
closes — makes `_split_key_value` raise `ValueError` from
`line.index('"', 1)`. -/
theorem C1_counterexample :
    parse_dat c1BadInput = .error .unclosedQuote ∧
    (∃ m, parse_dat c1UnterminatedInput = .ok m) := by
  constructor
  · rfl
  · exact ⟨_, rfl⟩

/-- C1, amended: `parse` always returns a top-level mapping and cannot
fail on bracket nesting — an unterminated array or object simply ends at
the end of input.  The embedded fuel never runs out (the recursion the
Python code performs always terminates), and the only possible failure
is a content line whose key opens a double quote that never closes
(`lineSafe` rules that out); all other malformed lines degrade to some
value. -/
theorem C1_parse_total_and_graceful :
    (∀ text : String, parse_dat text ≠ .error .fuelOut) ∧
    (∀ text : String, (∀ l ∈ datLines text, lineSafe l) →
      ∃ m, parse_dat text = .ok m) := by
  constructor
  · intro text h
    unfold parse_dat at h
    cases hres : parse_mapping_aux ((datLines text).length + 2) [] (datLines text) with
    | error e =>
      rw [hres] at h
      simp only [Except.map] at h
      cases h
      exact (parse_aux_fuel ((datLines text).length + 2)).1 [] (datLines text)
        (le_refl _) hres
    | ok r => rw [hres] at h; simp [Except.map] at h
  · intro text hsafe
    obtain ⟨⟨m, rest⟩, hr⟩ := (parse_aux_ok ((datLines text).length + 2)).1 []
      (datLines text) (le_refl _) hsafe
    exact ⟨m, by unfold parse_dat; rw [hr]; rfl⟩

/-- C1, witness: the amended theorem applied to the concrete document
with an unterminated array and object — its lines are quote-safe, and
parsing succeeds. -/
theorem C1_witness :
    (∀ l ∈ datLines c1UnterminatedInput, lineSafe l) ∧
    ∃ m, parse_dat c1UnterminatedInput = .ok m :=
  ⟨by decide, C1_parse_total_and_graceful.2 c1UnterminatedInput (by decide)⟩

/-- The line with a quoted URL value: the `//` inside the quotes is not
a comment. -/
def c9UrlLine : String := "Key \"https://example.com/a\""

/-- The line with a single-slash path value and a real trailing
comment. -/
def c9PathLine : String := "Key Sounds/Clip.mp3 // trailing note"

/-- C9: comment stripping removes a trailing `//` only outside a
double-quoted span, and a single slash never starts a comment: a line
with no `//` pair at all is returned unchanged, the quoted URL line
keeps its full string value, and the path line with a real comment
parses `Key` to exactly `Sounds/Clip.mp3`. -/
theorem C9_comment_vs_slash :
    (∀ l : List Char, ¬ hasDoubleSlash l → strip_comment l = l) ∧
    parse_dat c9UrlLine = .ok [("Key".data, .vStr "https://example.com/a".data)] ∧
    parse_dat c9PathLine = .ok [("Key".data, .vStr "Sounds/Clip.mp3".data)] := by
  refine ⟨fun l h => ?_, by rfl, by rfl⟩
  unfold strip_comment
  rw [findComment_none l h false]

/-- C9, witness: the single-slash part applied to the concrete path
value `Sounds/Clip.mp3`. -/
theorem C9_witness :
    ¬ hasDoubleSlash ("Sounds/Clip.mp3".data) ∧
    strip_comment ("Sounds/Clip.mp3".data) = "Sounds/Clip.mp3".data :=
  ⟨by decide, C9_comment_vs_slash.1 _ (by decide)⟩

/-- One spawn-table row (`SpawnTableEntry` in `models/entry.py`):
`ref_type` is `"asset"`, `"spawn"` or `"guid"`. -/
structure SpawnTableEntry where
  ref_type : String := ""
  ref_id : Int := 0
  ref_guid : String := ""
  weight : Int := 10
deriving DecidableEq

/-- A spawn table (`SpawnTable` in `models/entry.py`), restricted to the
fields `resolve_spawn_table_items` reads. -/
structure SpawnTable where
  id : Int := 0
  name : String := ""
  table_entries : List SpawnTableEntry := []
deriving DecidableEq

/-- Python `dict.get` over an insertion-ordered association list. -/
def assocLookup {α β : Type} [DecidableEq α] : List (α × β) → α → Option β
  | [], _ => none
  | (k, v) :: rest, x => if k = x then some v else assocLookup rest x

mutual

/-- `resolve_spawn_table_items` from `map_resolver.py`, fuelled.  The
Python `visited` set is mutated in place and shared with the caller, so
the embedding threads it through and returns the updated set alongside
the result.  Fuel exhaustion returns the empty set; the entry point's
fuel is proven sufficient below. -/
def resolve_spawn_fuel (fuel : Nat) (tables : List (Int × SpawnTable))
    (visited : Finset Int) (table_id : Int) : Finset Int × Finset Int :=
  match fuel with
  | 0 => (∅, visited)
  | fuel' + 1 =>
    if table_id ∈ visited then (∅, visited)
    else
      let v' := insert table_id visited
      match assocLookup tables table_id with
      | none => (∅, v')
      | some t => resolve_entries_fuel fuel' tables v' t.table_entries
termination_by (fuel, 0)

/-- The `for entry in table.table_entries` loop of
`resolve_spawn_table_items`: `asset` rows contribute their id, `spawn`
rows recurse, `guid` rows are deferred. -/
def resolve_entries_fuel (fuel : Nat) (tables : List (Int × SpawnTable))
    (visited : Finset Int) (entries : List SpawnTableEntry) :
    Finset Int × Finset Int :=
  match entries with
  | [] => (∅, visited)
  | e :: rest =>
    if e.ref_type = "asset" then
      let p := resolve_entries_fuel fuel tables visited rest
      (insert e.ref_id p.1, p.2)
    else if e.ref_type = "spawn" then
      let p1 := resolve_spawn_fuel fuel tables visited e.ref_id
      let p2 := resolve_entries_fuel fuel tables p1.2 rest
      (p1.1 ∪ p2.1, p2.2)
    else resolve_entries_fuel fuel tables visited rest
termination_by (fuel, entries.length + 1)

end

/-- `resolve_spawn_table_items(table_id, tables_by_id, visited)` with
the fuel `tables.length + 1`, shown sufficient below; Python's default
for `visited` is the empty set. -/
def resolve_spawn_table_items (table_id : Int)
    (tables : List (Int × SpawnTable)) (visited : Finset Int := ∅) :
    Finset Int :=
  (resolve_spawn_fuel (tables.length + 1) tables visited table_id).1

/-- The table ids a lookup can succeed on. -/
def tableKeys (tables : List (Int × SpawnTable)) : Finset Int :=
  (tables.map Prod.fst).toFinset

theorem assocLookup_mem {α β : Type} [DecidableEq α]
    (l : List (α × β)) (k : α) (v : β) (h : assocLookup l k = some v) :
    (k, v) ∈ l := by
  induction l with
  | nil => simp [assocLookup] at h
  | cons p rest ih =>
    rw [assocLookup] at h
    split at h
    · rename_i hk
      simp only [Option.some.injEq] at h
      have hp : (k, v) = p := by
        cases p
        simp_all
      rw [hp]
      exact List.mem_cons_self p rest
    · exact List.mem_cons_of_mem p (ih h)

theorem entries_mono_of (fuel : Nat) (tables : List (Int × SpawnTable))
    (hs : ∀ v id, v ⊆ (resolve_spawn_fuel fuel tables v id).2) :
    ∀ l v, v ⊆ (resolve_entries_fuel fuel tables v l).2 := by
  intro l
  induction l with
  | nil => intro v; simp [resolve_entries_fuel]
  | cons e rest ih =>
    intro v
    rw [resolve_entries_fuel]
    split
    · exact ih v
    · split
      · exact (hs v e.ref_id).trans (ih _)
      · exact ih v

/-- The shared `visited` set only ever grows. -/
theorem resolve_mono (fuel : Nat) (tables : List (Int × SpawnTable)) :
    (∀ v id, v ⊆ (resolve_spawn_fuel fuel tables v id).2) ∧
    (∀ l v, v ⊆ (resolve_entries_fuel fuel tables v l).2) := by
  induction fuel with
  | zero =>
    have hs : ∀ v id, v ⊆ (resolve_spawn_fuel 0 tables v id).2 := by
      intro v id; simp [resolve_spawn_fuel]
    exact ⟨hs, entries_mono_of 0 tables hs⟩
  | succ f ih =>
    have hs : ∀ v id, v ⊆ (resolve_spawn_fuel (f + 1) tables v id).2 := by
      intro v id
      rw [resolve_spawn_fuel]
      split
      · exact subset_rfl
      · split
        · exact Finset.subset_insert _ _
        · exact (Finset.subset_insert _ _).trans (ih.2 _ _)
    exact ⟨hs, entries_mono_of (f + 1) tables hs⟩

theorem entries_stab_of (m : Nat) (tables : List (Int × SpawnTable))
    (hA : ∀ v id, (tableKeys tables \ v).card < m →
      resolve_spawn_fuel (m + 1) tables v id = resolve_spawn_fuel m tables v id) :
    ∀ l v, (tableKeys tables \ v).card < m →
      resolve_entries_fuel (m + 1) tables v l = resolve_entries_fuel m tables v l := by
  intro l
  induction l with
  | nil => intro v _; simp [resolve_entries_fuel]
  | cons e rest ih =>
    intro v hv
    rw [resolve_entries_fuel]
    conv_rhs => rw [resolve_entries_fuel]
    split
    · rw [ih v hv]
    · split
      · rw [hA v e.ref_id hv]
        have hsub : v ⊆ (resolve_spawn_fuel m tables v e.ref_id).2 :=
          (resolve_mono m tables).1 v e.ref_id
        have hcard : (tableKeys tables \ (resolve_spawn_fuel m tables v e.ref_id).2).card < m :=
          lt_of_le_of_lt (Finset.card_le_card (Finset.sdiff_subset_sdiff subset_rfl hsub)) hv
        dsimp only
        rw [ih _ hcard]
      · exact ih v hv

/-- Fuel stabilisation: once the fuel exceeds the number of not-yet
visited table ids, adding more fuel does not change the result — the
embedded recursion has converged, i.e. the Python recursion terminates. -/
theorem resolve_stab (tables : List (Int × SpawnTable)) (m : Nat) :
    (∀ v id, (tableKeys tables \ v).card < m →
      resolve_spawn_fuel (m + 1) tables v id = resolve_spawn_fuel m tables v id) ∧
    (∀ l v, (tableKeys tables \ v).card < m →
      resolve_entries_fuel (m + 1) tables v l = resolve_entries_fuel m tables v l) := by
  induction m with
  | zero =>
    have hA : ∀ v id, (tableKeys tables \ v).card < 0 →
        resolve_spawn_fuel 1 tables v id = resolve_spawn_fuel 0 tables v id := by
      intro v id h; omega
    exact ⟨hA, entries_stab_of 0 tables hA⟩
  | succ k ih =>
    have hA : ∀ v id, (tableKeys tables \ v).card < k + 1 →
        resolve_spawn_fuel (k + 2) tables v id = resolve_spawn_fuel (k + 1) tables v id := by
      intro v id hv
      rw [resolve_spawn_fuel]
      conv_rhs => rw [resolve_spawn_fuel]
      split
      · rfl
      · rename_i hvis
        split
        · rfl
        · rename_i t hlook
          have hidS : id ∈ tableKeys tables := by
            simp only [tableKeys, List.mem_toFinset, List.mem_map]
            exact ⟨(id, t), assocLookup_mem tables id t hlook, rfl⟩
          have hmem : id ∈ tableKeys tables \ v := Finset.mem_sdiff.mpr ⟨hidS, hvis⟩
          have hcard : (tableKeys tables \ insert id v).card =
              (tableKeys tables \ v).card - 1 := by
            rw [Finset.sdiff_insert]
            rw [Finset.card_erase_of_mem hmem]
          have hkpos : 1 ≤ (tableKeys tables \ v).card := by
            exact Finset.card_pos.mpr ⟨id, hmem⟩ 
          have : (tableKeys tables \ insert id v).card < k := by omega
          exact ih.2 t.table_entries (insert id v) this
    exact ⟨hA, entries_stab_of (k + 1) tables hA⟩

/-- Any fuel at least `tables.length + 1` gives the same answer as the
entry point's fuel: the recursion has terminated by then. -/
theorem resolve_fuel_ge (tables : List (Int × SpawnTable)) (v : Finset Int)
    (id : Int) :
    ∀ f, tables.length + 1 ≤ f →
      resolve_spawn_fuel f tables v id =
        resolve_spawn_fuel (tables.length + 1) tables v id := by
  intro f
  induction f with
  | zero => intro h; omega
  | succ f ih =>
    intro h
    rcases Nat.lt_or_ge (tables.length + 1) (f + 1) with hlt | hge
    · have hf : tables.length + 1 ≤ f := by omega
      have hcard : (tableKeys tables \ v).card < f := by
        have h1 : (tableKeys tables).card ≤ tables.length := by
          simpa [tableKeys] using (tables.map Prod.fst).toFinset_card_le
        have h2 : (tableKeys tables \ v).card ≤ (tableKeys tables).card :=
          Finset.card_le_card (Finset.sdiff_subset)
        omega
      rw [(resolve_stab tables f).1 v id hcard]
      exact ih hf
    · have : tables.length + 1 = f + 1 := by omega
      rw [this]

theorem entries_empty_of (fuel : Nat) (tables : List (Int × SpawnTable))
    (hs : ∀ v id, (resolve_spawn_fuel fuel tables v id).1 = ∅) :
    ∀ l v, (∀ e ∈ l, e.ref_type = "spawn") →
      (resolve_entries_fuel fuel tables v l).1 = ∅ := by
  intro l
  induction l with
  | nil => intro v _; simp [resolve_entries_fuel]
  | cons e rest ih =>
    intro v hl
    have he : e.ref_type = "spawn" := hl e (List.mem_cons_self e rest)
    have hr : ∀ x ∈ rest, x.ref_type = "spawn" :=
      fun x hx => hl x (List.mem_cons_of_mem e hx)
    rw [resolve_entries_fuel]
    rw [if_neg (by rw [he]; simp), if_pos he]
    dsimp only
    rw [hs v e.ref_id, ih _ hr]
    simp

/-- In a table collection whose rows are all `spawn`-kind references —
pure reference chains and cycles of any length — resolution contributes
no leaf item at any fuel. -/
theorem resolve_pure_spawn_empty (tables : List (Int × SpawnTable))
    (hall : ∀ p ∈ tables, ∀ e ∈ p.2.table_entries, e.ref_type = "spawn") :
    ∀ fuel v id, (resolve_spawn_fuel fuel tables v id).1 = ∅ := by
  intro fuel
  induction fuel with
  | zero => intro v id; simp [resolve_spawn_fuel]
  | succ f ih =>
    intro v id
    rw [resolve_spawn_fuel]
    split
    · rfl
    · split
      · rfl
      · rename_i t hlook
        exact entries_empty_of f tables ih t.table_entries _
          (hall (id, t) (assocLookup_mem tables id t hlook) )

/-- C2: spawn-table resolution terminates on every finite table
collection (any fuel beyond the entry point's bound returns the entry
point's answer); a table id already in `visited` resolves to the empty
set immediately; a table id absent from the collection resolves to the
empty set rather than an error; and a collection of pure spawn-kind
reference rows — arbitrary chains and cycles, of any length — resolves
to the empty set. -/
theorem C2_spawn_resolution :
    (∀ (tables : List (Int × SpawnTable)) (v : Finset Int) (id : Int) (f : Nat),
        tables.length + 1 ≤ f →
        (resolve_spawn_fuel f tables v id).1 = resolve_spawn_table_items id tables v) ∧
    (∀ (tables : List (Int × SpawnTable)) (v : Finset Int) (id : Int),
        id ∈ v → resolve_spawn_table_items id tables v = ∅) ∧
    (∀ (tables : List (Int × SpawnTable)) (v : Finset Int) (id : Int),
        assocLookup tables id = none → resolve_spawn_table_items id tables v = ∅) ∧
    (∀ (tables : List (Int × SpawnTable)) (v : Finset Int) (id : Int),
        (∀ p ∈ tables, ∀ e ∈ p.2.table_entries, e.ref_type = "spawn") →
        resolve_spawn_table_items id tables v = ∅) := by
  refine ⟨?_, ?_, ?_, ?_⟩
  · intro tables v id f hf
    unfold resolve_spawn_table_items
    rw [resolve_fuel_ge tables v id f hf]
  · intro tables v id h
    simp [resolve_spawn_table_items, resolve_spawn_fuel, h]
  · intro tables v id h
    by_cases hv : id ∈ v <;>
      simp [resolve_spawn_table_items, resolve_spawn_fuel, hv, h]
  · intro tables v id h
    exact resolve_pure_spawn_empty tables h _ v id

/-- A pure spawn-reference cycle of length 3: table 1 points at table 2,
table 2 at table 3, table 3 back at table 1. -/
def cycTables : List (Int × SpawnTable) :=
  [ (1, { id := 1, table_entries := [{ ref_type := "spawn", ref_id := 2 }] }),
    (2, { id := 2, table_entries := [{ ref_type := "spawn", ref_id := 3 }] }),
    (3, { id := 3, table_entries := [{ ref_type := "spawn", ref_id := 1 }] }) ]

/-- C2, witness: the theorem applied to the concrete 3-cycle (resolves
to the empty set), to an already-visited id, to a missing id, and to a
larger fuel (same answer: the recursion has terminated). -/
theorem C2_witness :
    ((∀ p ∈ cycTables, ∀ e ∈ p.2.table_entries, e.ref_type = "spawn") ∧
      resolve_spawn_table_items 1 cycTables = ∅) ∧
    ((7 : Int) ∈ ({7} : Finset Int) ∧
      resolve_spawn_table_items 7 cycTables {7} = ∅) ∧
    (assocLookup cycTables 99 = none ∧
      resolve_spawn_table_items 99 cycTables = ∅) ∧
    (cycTables.length + 1 ≤ 10 ∧
      (resolve_spawn_fuel 10 cycTables ∅ 1).1 = resolve_spawn_table_items 1 cycTables) :=
  ⟨⟨by decide, C2_spawn_resolution.2.2.2 cycTables ∅ 1 (by decide)⟩,
   ⟨by decide, C2_spawn_resolution.2.1 cycTables {7} 7 (by decide)⟩,
   ⟨by decide, C2_spawn_resolution.2.2.1 cycTables ∅ 99 (by decide)⟩,
   ⟨by decide, C2_spawn_resolution.1 cycTables ∅ 1 10 (by decide)⟩⟩

/-- UTF-8 encoding of one code point. -/
def utf8EncodeChar (n : Nat) : List Nat :=
  if n < 0x80 then [n]
  else if n < 0x800 then [0xC0 + n / 64, 0x80 + n % 64]
  else if n < 0x10000 then
    [0xE0 + n / 4096, 0x80 + (n / 64) % 64, 0x80 + n % 64]
  else
    [0xF0 + n / 262144, 0x80 + (n / 4096) % 64, 0x80 + (n / 64) % 64,
      0x80 + n % 64]

/-- Python `str.encode()`: UTF-8 bytes of a string. -/
def utf8Bytes (s : String) : List Nat := s.data.flatMap (fun c => utf8EncodeChar c.toNat)

/-- 32-bit right rotation (on `Nat`, reduced mod `2 ^ 32`). -/
def rotr32 (n w : Nat) : Nat := ((w >>> n) + (w <<< (32 - n))) % 2 ^ 32

/-- SHA-256 `Ch` function; `¬x` is the xor with the 32-bit mask. -/
def shaCh (x y z : Nat) : Nat := (x &&& y) ^^^ ((x ^^^ 0xFFFFFFFF) &&& z)

/-- SHA-256 `Maj` function. -/
def shaMaj (x y z : Nat) : Nat := (x &&& y) ^^^ (x &&& z) ^^^ (y &&& z)

/-- SHA-256 big sigma-0. -/
def bsig0 (w : Nat) : Nat := rotr32 2 w ^^^ rotr32 13 w ^^^ rotr32 22 w

/-- SHA-256 big sigma-1. -/
def bsig1 (w : Nat) : Nat := rotr32 6 w ^^^ rotr32 11 w ^^^ rotr32 25 w

/-- SHA-256 small sigma-0. -/
def ssig0 (w : Nat) : Nat := rotr32 7 w ^^^ rotr32 18 w ^^^ (w >>> 3)

/-- SHA-256 small sigma-1. -/
def ssig1 (w : Nat) : Nat := rotr32 17 w ^^^ rotr32 19 w ^^^ (w >>> 10)

/-- The SHA-256 round constants. -/
def shaK : List Nat :=
  [1116352408, 1899447441, 3049323471, 3921009573, 961987163, 1508970993,
   2453635748, 2870763221, 3624381080, 310598401, 607225278, 1426881987,
   1925078388, 2162078206, 2614888103, 3248222580, 3835390401, 4022224774,
   264347078, 604807628, 770255983, 1249150122, 1555081692, 1996064986,
   2554220882, 2821834349, 2952996808, 3210313671, 3336571891, 3584528711,
   113926993, 338241895, 666307205, 773529912, 1294757372, 1396182291,
   1695183700, 1986661051, 2177026350, 2456956037, 2730485921, 2820302411,
   3259730800, 3345764771, 3516065817, 3600352804, 4094571909, 275423344,
   430227734, 506948616, 659060556, 883997877, 958139571, 1322822218,
   1537002063, 1747873779, 1955562222, 2024104815, 2227730452, 2361852424,
   2428436474, 2756734187, 3204031479, 3329325298]

/-- The working state of one SHA-256 compression: the eight 32-bit
registers. -/
structure ShaState where
  a : Nat
  b : Nat
  c : Nat
  d : Nat
  e : Nat
  f : Nat
  g : Nat
  h : Nat

/-- The SHA-256 initial hash value. -/
def shaH0 : ShaState :=
  ⟨0x6a09e667, 0xbb67ae85, 0x3c6ef372, 0xa54ff53a,
   0x510e527f, 0x9b05688c, 0x1f83d9ab, 0x5be0cd19⟩

/-- SHA-256 message padding: `0x80`, zeros to 56 mod 64, then the
bit length as 8 big-endian bytes. -/
def shaPad (msg : List Nat) : List Nat :=
  let zeros := (64 - (msg.length + 9) % 64) % 64
  let bitLen := msg.length * 8
  msg ++ [0x80] ++ List.replicate zeros 0 ++
    [bitLen / 2 ^ 56 % 256, bitLen / 2 ^ 48 % 256, bitLen / 2 ^ 40 % 256,
     bitLen / 2 ^ 32 % 256, bitLen / 2 ^ 24 % 256, bitLen / 2 ^ 16 % 256,
     bitLen / 2 ^ 8 % 256, bitLen % 256]

/-- The sixteen big-endian 32-bit words of a 64-byte block. -/
def blockWords : List Nat → List Nat
  | b0 :: b1 :: b2 :: b3 :: rest =>
    (b0 * 2 ^ 24 + b1 * 2 ^ 16 + b2 * 2 ^ 8 + b3) :: blockWords rest
  | _ => []

/-- Extend sixteen words to the 64-entry message schedule. -/
def shaSchedule (w16 : List Nat) : List Nat :=
  (List.range 48).foldl
    (fun ws _ =>
      let n := ws.length
      let nw := (ssig1 (ws.getD (n - 2) 0) + ws.getD (n - 7) 0 +
        ssig0 (ws.getD (n - 15) 0) + ws.getD (n - 16) 0) % 2 ^ 32
      ws ++ [nw])
    w16

/-- One SHA-256 round. -/
def shaRound (st : ShaState) (wk : Nat × Nat) : ShaState :=
  let t1 := (st.h + bsig1 st.e + shaCh st.e st.f st.g + wk.2 + wk.1) % 2 ^ 32
  let t2 := (bsig0 st.a + shaMaj st.a st.b st.c) % 2 ^ 32
  ⟨(t1 + t2) % 2 ^ 32, st.a, st.b, st.c, (st.d + t1) % 2 ^ 32, st.e, st.f, st.g⟩

/-- Compress one block into the running hash. -/
def shaCompress (h : ShaState) (block : List Nat) : ShaState :=
  let w := shaSchedule (blockWords block)
  let st := (w.zip shaK).foldl shaRound h
  ⟨(h.a + st.a) % 2 ^ 32, (h.b + st.b) % 2 ^ 32, (h.c + st.c) % 2 ^ 32,
   (h.d + st.d) % 2 ^ 32, (h.e + st.e) % 2 ^ 32, (h.f + st.f) % 2 ^ 32,
   (h.g + st.g) % 2 ^ 32, (h.h + st.h) % 2 ^ 32⟩

/-- Fold the compression over `n` 64-byte blocks (the padded message
always has a multiple of 64 bytes). -/
def shaFoldBlocks : Nat → ShaState → List Nat → ShaState
  | 0, h, _ => h
  | n + 1, h, l => shaFoldBlocks n (shaCompress h (l.take 64)) (l.drop 64)

/-- The SHA-256 hash state of a byte message. -/
def sha256State (msg : List Nat) : ShaState :=
  shaFoldBlocks ((shaPad msg).length / 64) shaH0 (shaPad msg)

/-- Big-endian bytes of a 32-bit word. -/
def wordBytes (w : Nat) : List Nat :=
  [w / 2 ^ 24 % 256, w / 2 ^ 16 % 256, w / 2 ^ 8 % 256, w % 256]

/-- Lowercase hex digit. -/
def hexChar (n : Nat) : Char := "0123456789abcdef".data.getD n 'x'

/-- Two lowercase hex digits of a byte (fixed width, like Python's
`hexdigest`). -/
def byteHex (b : Nat) : List Char := [hexChar (b / 16 % 16), hexChar (b % 16)]

/-- `hashlib.sha256(msg).hexdigest()` as a character list. -/
def sha256hexChars (msg : List Nat) : List Char :=
  let st := sha256State msg
  ([st.a, st.b, st.c, st.d, st.e, st.f, st.g, st.h].flatMap wordBytes).flatMap
    byteHex

/-- A blueprint input/output reference as the exporter sees it: a raw
string token, the tool-dict form (whose `ID` is a string or an integer
as parsed from the `.dat` file), or any other parsed value (returned
unchanged by `_resolve_ref`). -/
inductive ExRef where
  | s (tok : String)
  | d (idField : String ⊕ Int) (amount : Option Int) (delete : Option Bool)
  | otherVal
deriving DecidableEq

/-- A blueprint as the exporter walks it (`Blueprint` restricted to
`name`, `inputs`, `outputs`). -/
structure ExBlueprint where
  name : String := ""
  inputs : List ExRef := []
  outputs : List ExRef := []
deriving DecidableEq

/-- A bundle entry as the exporter reads it (`BundleEntry` restricted to
the fields `_ensure_guids` / `_resolve_blueprint_ids` touch). -/
structure BEntry where
  guid : String := ""
  type : String := ""
  id : Int := 0
  name : String := ""
  source_path : String := ""
  blueprints : List ExBlueprint := []
deriving DecidableEq

/-- `_SOURCE_DIR_TO_NAMESPACE` from `exporter.py`. -/
def sourceDirToNamespace : List (String × String) :=
  [("Items", "items"), ("Vehicles", "vehicles"), ("Objects", "objects"),
   ("Spawns", "spawns"), ("Animals", "animals"), ("Effects", "effects"),
   ("Trees", "resources"), ("Skins", "skins"), ("Mythics", "mythics"),
   ("NPCs", "npcs")]

/-- Find the first occurrence of `sep` (non-empty) in `l`: the part
before it and the part after it. -/
def findSub (sep : List Char) : List Char → Option (List Char × List Char)
  | [] => none
  | c :: rest =>
    if (c :: rest).take sep.length = sep then some ([], (c :: rest).drop sep.length)
    else (findSub sep rest).map (fun p => (c :: p.1, p.2))

/-- Python `str.split(sep)` (fuelled structurally so the kernel can
evaluate it; the fuel is always sufficient since every step consumes
the separator). -/
def pySplitSubFuel : Nat → List Char → List Char → List (List Char)
  | 0, _, l => [l]
  | fuel + 1, sep, l =>
    match findSub sep l with
    | none => [l]
    | some (pre, post) => pre :: pySplitSubFuel fuel sep post

/-- Python `str.split(sep)` on strings. -/
def pySplitSub (sep : String) (s : String) : List String :=
  (pySplitSubFuel (s.data.length + 1) sep.data s.data).map String.mk

/-- `_get_namespace` from `exporter.py`: the namespace of the top-level
directory of `source_path`, lower-cased when unmapped. -/
def get_namespace (source_path : String) : String :=
  let top := if source_path = "" then "" else (pySplitSub "/" source_path).headD ""
  (assocLookup sourceDirToNamespace top).getD (pyLower top)

/-- Python `str(int)` (decimal, minus sign for negatives). -/
def pyStrOfInt (i : Int) : String := toString i

/-- The synthetic canonical id minted by `_ensure_guids`:
`"00000" + sha256(f"{source}:{type}:{id}").hexdigest()[:27]`. -/
def syntheticGuid (source type_ : String) (id : Int) : String :=
  "00000" ++ String.mk
    ((sha256hexChars (utf8Bytes (source ++ ":" ++ type_ ++ ":" ++ pyStrOfInt id))).take 27)

/-- `_ensure_guids` from `exporter.py`: assign the synthetic GUID to
every entry whose `guid` is empty; all other entries are untouched. -/
def ensure_guids (entries : List BEntry) (source : String) : List BEntry :=
  entries.map (fun e =>
    if e.guid = "" then { e with guid := syntheticGuid source e.type e.id } else e)

/-- The nested index `{numeric_id: {namespace: {source_label: guid}}}`
built by `_index` inside `_resolve_blueprint_ids`; all three levels are
insertion-ordered dicts. -/
def IdMap : Type := List (Int × List (String × List (String × String)))

/-- One `_index` write: `id_map[e.id][ns][src] = e.guid`, skipping
entries with id `0` or an empty guid. -/
def indexEntry (m : IdMap) (e : BEntry) (src : String) : IdMap :=
  if e.id = 0 ∨ e.guid = "" then m
  else
    let ns := get_namespace e.source_path
    let nsMap := (assocLookup m e.id).getD []
    let srcMap := (assocLookup nsMap ns).getD []
    assocSet m e.id (assocSet nsMap ns (assocSet srcMap src e.guid))

/-- `_index` over a list of entries. -/
def indexEntries (m : IdMap) (entries : List BEntry) (src : String) : IdMap :=
  entries.foldl (fun m e => indexEntry m e src) m

/-- Structured stand-ins for the `logger.warning` diagnostics of
`_resolve_id` / `_resolve_ref` (the log text also names the entry and
blueprint; the claims only need which diagnostic fired and for what). -/
inductive ExDiag where
  | nonItemNamespace (id : Int) (ns : String)
  | crossSource (id : Int) (ns : String)
  | unresolvable (idStr : String)
deriving DecidableEq

/-- Priority 3 of `_resolve_id`: the first namespace (in insertion
order) holding the referencing source. -/
def findSameSource (source : String) :
    List (String × List (String × String)) → Option (String × String)
  | [] => none
  | (ns, srcs) :: rest =>
    match assocLookup srcs source with
    | some g => some (ns, g)
    | none => findSameSource source rest

/-- `_resolve_id` from `exporter.py`: the namespace/source priority
chain.  Rules 1 and 2 are silent; rules 3 and 4 emit a diagnostic.
`next(iter(...))` is the first inserted element; the index construction
never creates an empty inner dict, so the `.head?`-is-`none` fallbacks
(where Python would raise `StopIteration`) are unreachable on indexes
built by `indexEntries`. -/
def resolveId (idMap : IdMap) (source : String) (numericId : Int) :
    Option String × List ExDiag :=
  match assocLookup idMap numericId with
  | none => (none, [])
  | some nsMap =>
    match assocLookup nsMap "items" with
    | some srcs =>
      match assocLookup srcs source with
      | some g => (some g, [])
      | none =>
        match srcs.head? with
        | some p => (some p.2, [])
        | none => (none, [])
    | none =>
      match findSameSource source nsMap with
      | some (ns, g) => (some g, [.nonItemNamespace numericId ns])
      | none =>
        match nsMap.head? with
        | some (ns, srcs) =>
          match srcs.head? with
          | some p => (some p.2, [.crossSource numericId ns])
          | none => (none, [])
        | none => (none, [])

/-- Python `str.isdigit` on the ASCII tokens the corpus holds. -/
def pyIsDigit (s : String) : Bool := !s.data.isEmpty && s.data.all Char.isDigit

/-- `_GUID_RE` from `exporter.py`: exactly 32 lowercase hex characters. -/
def isGuidLower (s : String) : Bool :=
  s.data.length = 32 &&
    s.data.all (fun c => c.isDigit || ('a' ≤ c && c ≤ 'f'))

/-- Python `str.strip()` on `String`. -/
def pyStripStr (s : String) : String := ⟨pyStrip s.data⟩

/-- The `parts[0].strip()` of `_resolve_ref`: the candidate id of a
string token. -/
def idStrOf (tok : String) : String := pyStripStr ((pySplitSub " x " tok).headD "")

/-- `_resolve_ref` from `exporter.py`: resolve one blueprint reference,
leaving it unchanged (with an `unresolvable` diagnostic for
digit-looking tokens) when no GUID is found. -/
def resolveRef (idMap : IdMap) (source : String) (ref : ExRef) :
    ExRef × List ExDiag :=
  match ref with
  | .d (Sum.inl idStr) amount delete =>
    if pyIsDigit idStr then
      let r := resolveId idMap source (digitsVal idStr.data)
      match r.1 with
      | some g => (.d (Sum.inl g) amount delete, r.2)
      | none => (ref, r.2)
    else (ref, [])
  | .d (Sum.inr n) amount delete => (.d (Sum.inr n) amount delete, [])
  | .otherVal => (ref, [])
  | .s tok =>
    if tok = "this" then (ref, [])
    else
      let parts := pySplitSub " x " tok
      let idStr := pyStripStr (parts.headD "")
      if isGuidLower idStr then (ref, [])
      else if pyIsDigit idStr then
        let r := resolveId idMap source (digitsVal idStr.data)
        match r.1 with
        | some g =>
          if parts.length > 1 then
            (.s (g ++ " x " ++ pyStripStr (parts.getD 1 "")), r.2)
          else (.s g, r.2)
        | none => (ref, r.2 ++ [.unresolvable idStr])
      else (ref, [])

/-- Map a per-element rewriting function over a list, collecting the
diagnostics in order. -/
def mapCollect {α δ : Type} (f : α → α × List δ) : List α → List α × List δ
  | [] => ([], [])
  | x :: xs =>
    let y := f x
    let ys := mapCollect f xs
    (y.1 :: ys.1, y.2 ++ ys.2)

/-- `_resolve_blueprint_ids` from `exporter.py`: build the id index from
`entries` (labelled `source`) and `extra_entries` (labelled `"base"`),
then rewrite every blueprint input and output. -/
def resolve_blueprint_ids (entries : List BEntry) (source : String)
    (extra_entries : List BEntry := []) : List BEntry × List ExDiag :=
  let idMap := indexEntries (indexEntries [] entries source) extra_entries "base"
  mapCollect (fun e =>
    let bps := mapCollect (fun bp =>
      let ins := mapCollect (resolveRef idMap source) bp.inputs
      let outs := mapCollect (resolveRef idMap source) bp.outputs
      ({ bp with inputs := ins.1, outputs := outs.1 }, ins.2 ++ outs.2)) e.blueprints
    ({ e with blueprints := bps.1 }, bps.2)) entries

theorem assocLookup_assocSet_ne {α β : Type} [DecidableEq α]
    (m : List (α × β)) (k k' : α) (v : β) (h : k' ≠ k) :
    assocLookup (assocSet m k v) k' = assocLookup m k' := by
  induction m with
  | nil =>
    simp only [assocSet, assocLookup]
    rw [if_neg (fun hh => h hh.symm)]
  | cons p rest ih =>
    obtain ⟨pk, pv⟩ := p
    rw [assocSet]
    by_cases hpk : pk = k
    · simp only [hpk, if_pos rfl]
      simp only [assocLookup]
      rw [if_neg (fun hh => h hh.symm), if_neg (fun hh => h hh.symm)]
    · simp only [if_neg hpk]
      simp only [assocLookup]
      by_cases hpk' : pk = k'
      · simp [hpk']
      · simp [hpk', ih]

/-- Indexing never touches the key `0`: entries with id `0` are
skipped, and writes for other ids do not create a `0` key. -/
theorem indexEntries_zero (entries : List BEntry) :
    ∀ (m : IdMap) (src : String),
      assocLookup (indexEntries m entries src) 0 = assocLookup m 0 := by
  induction entries with
  | nil => intro m src; rfl
  | cons e rest ih =>
    intro m src
    have hstep : assocLookup (indexEntry m e src) 0 = assocLookup m 0 := by
      rw [indexEntry]
      split
      · rfl
      · rename_i hskip
        have hne : e.id ≠ 0 := fun h0 => hskip (Or.inl h0)
        exact assocLookup_assocSet_ne m e.id 0 _ (fun h => hne h.symm)
    calc assocLookup (indexEntries (indexEntry m e src) rest src) 0
        = assocLookup (indexEntry m e src) 0 := ih _ src
      _ = assocLookup m 0 := hstep

/-- The claim's scenario: numeric id 100 registered under `items`/base,
then `items`/mapA, then `spawns`/base. -/
def c3ItemsBase : BEntry :=
  { guid := "guid-items-base", type := "Food", id := 100,
    name := "Food Base", source_path := "Items/Edible/Food" }

/-- The `items`/mapA registration of id 100. -/
def c3ItemsMapA : BEntry :=
  { guid := "guid-items-mapa", type := "Food", id := 100,
    name := "Food MapA", source_path := "Items/Edible/FoodA" }

/-- The `spawns`/base registration of id 100. -/
def c3SpawnsBase : BEntry :=
  { guid := "guid-spawns-base", type := "Spawn", id := 100,
    name := "Spawn 100", source_path := "Spawns/Spawn_100" }

/-- The index with id 100 under items/base, items/mapA and spawns/base,
registered in the order the claim lists them. -/
def c3Index : IdMap :=
  indexEntries
    (indexEntries (indexEntries [] [c3ItemsBase] "base") [c3ItemsMapA] "mapA")
    [c3SpawnsBase] "base"

/-- An index holding id 100 only under the `spawns` namespace. -/
def c3SpawnsOnly : IdMap := indexEntries [] [c3SpawnsBase] "base"

/-- C3: the priority chain of `_resolve_id`.  With id 100 registered
under items/base, items/mapA and spawns/base: referencing source mapA
selects items/mapA (rule 1); an unrelated source selects items/base —
not spawns/base (rule 2); rules 3 and 4 (no items registration) each
return the spawns guid with a diagnostic; and id 0 is never indexed, so
it never resolves. -/
theorem C3_priority_chain :
    resolveId c3Index "mapA" 100 = (some "guid-items-mapa", []) ∧
    resolveId c3Index "mapB" 100 = (some "guid-items-base", []) ∧
    resolveId c3Index "base" 100 = (some "guid-items-base", []) ∧
    resolveId c3SpawnsOnly "base" 100 =
      (some "guid-spawns-base", [.nonItemNamespace 100 "spawns"]) ∧
    resolveId c3SpawnsOnly "mapB" 100 =
      (some "guid-spawns-base", [.crossSource 100 "spawns"]) ∧
    (∀ (m : IdMap) (entries : List BEntry) (src : String),
      assocLookup (indexEntries m entries src) 0 = assocLookup m 0) ∧
    (∀ (entries : List BEntry) (src source : String),
      resolveId (indexEntries [] entries src) source 0 = (none, [])) := by
  refine ⟨by decide, by decide, by decide, by decide, by decide,
    fun m entries src => indexEntries_zero entries m src, ?_⟩
  intro entries src source
  have h0 : assocLookup (indexEntries [] entries src) 0 =
      (none : Option (List (String × List (String × String)))) :=
    indexEntries_zero entries [] src
  rw [resolveId]
  rw [h0]

/-- C7: a bare or decimal-looking token that the numeric-id index does
not hold is left unchanged and an `unresolvable` diagnostic is emitted
(never an exception, the embedding is total); and a string token is
rewritten only when the index does resolve its id. -/
theorem C7_unresolvable_preserved :
    (∀ (idMap : IdMap) (source tok : String),
      tok ≠ "this" →
      isGuidLower (idStrOf tok) = false →
      pyIsDigit (idStrOf tok) = true →
      (resolveId idMap source (digitsVal (idStrOf tok).data)).1 = none →
      resolveRef idMap source (.s tok) =
        (.s tok, (resolveId idMap source (digitsVal (idStrOf tok).data)).2 ++
          [.unresolvable (idStrOf tok)])) ∧
    (∀ (idMap : IdMap) (source tok : String),
      (resolveRef idMap source (.s tok)).1 = .s tok ∨
      ∃ g, (resolveId idMap source (digitsVal (idStrOf tok).data)).1 = some g) := by
  constructor
  · intro idMap source tok h1 h2 h3 h4
    simp only [resolveRef, if_neg h1, idStrOf] at h4 ⊢
    simp only [idStrOf] at h2 h3
    simp only [h2, h3, Bool.false_eq_true, if_false, if_true]
    split
    · rename_i g hg
      rw [h4] at hg
      cases hg
    · rfl
  · intro idMap source tok
    by_cases h1 : tok = "this"
    · left; simp [resolveRef, h1]
    · simp only [resolveRef, if_neg h1]
      repeat' split
      all_goals first
      | (left; rfl)
      | (rename_i heq
         right
         exact ⟨_, by simpa [idStrOf] using heq⟩)
      | (rename_i heq hlen
         right
         exact ⟨_, by simpa [idStrOf] using heq⟩)

/-- C7, witness: the unresolved-token part applied to the token
`"99999"` against the empty index: the token survives unchanged and the
diagnostic fires. -/
theorem C7_witness :
    ("99999" ≠ "this" ∧ isGuidLower (idStrOf "99999") = false ∧
      pyIsDigit (idStrOf "99999") = true ∧
      (resolveId [] "base" (digitsVal (idStrOf "99999").data)).1 = none) ∧
    resolveRef [] "base" (.s "99999") =
      (.s "99999", (resolveId [] "base" (digitsVal (idStrOf "99999").data)).2 ++
        [.unresolvable (idStrOf "99999")]) :=
  ⟨⟨by decide, by decide, by decide, by decide⟩,
    C7_unresolvable_preserved.1 [] "base" "99999" (by decide) (by decide)
      (by decide) (by decide)⟩

theorem sha256hexChars_length (msg : List Nat) :
    (sha256hexChars msg).length = 64 := by
  simp [sha256hexChars, wordBytes, byteHex]

/-- A lowercase hexadecimal character. -/
def isHexLower (c : Char) : Prop := c.isDigit ∨ ('a' ≤ c ∧ c ≤ 'f')

instance (c : Char) : Decidable (isHexLower c) := by
  unfold isHexLower; infer_instance

theorem hexChar_isHexLower (n : Nat) : isHexLower (hexChar (n % 16)) := by
  have h : n % 16 < 16 := Nat.mod_lt _ (by norm_num)
  revert h
  generalize n % 16 = k
  intro h
  have hall : ∀ m < 16, isHexLower (hexChar m) := by decide
  exact hall k h

theorem sha256hexChars_hex (msg : List Nat) :
    ∀ c ∈ sha256hexChars msg, isHexLower c := by
  intro c hc
  simp only [sha256hexChars, List.mem_flatMap] at hc
  obtain ⟨b, _, hcb⟩ := hc
  simp only [byteHex, List.mem_cons, List.not_mem_nil, or_false] at hcb
  rcases hcb with h | h
  · rw [h, show b / 16 % 16 = b / 16 % 16 from rfl]
    exact hexChar_isHexLower (b / 16)
  · rw [h]
    exact hexChar_isHexLower b

/-- C8: the synthetic canonical id is a fixed-width 32-character
lowercase-hex string beginning with the reserved prefix `00000`; it is
a pure function of `(source, declared type, numeric id)` (byte-identical
on identical input by construction — the embedding is a function and the
Python code reads no clock or randomness); `_ensure_guids` assigns it
exactly to the entries whose guid is empty and leaves all others
byte-for-byte unchanged; and changing any one of the three inputs
changes the output at the concrete probe `("base", "Gun", 100)`. -/
theorem C8_synthetic_guid :
    (∀ (s t : String) (i : Int), (syntheticGuid s t i).length = 32) ∧
    (∀ (s t : String) (i : Int),
      (syntheticGuid s t i).data.take 5 = "00000".data) ∧
    (∀ (s t : String) (i : Int), ∀ c ∈ (syntheticGuid s t i).data, isHexLower c) ∧
    (∀ (entries : List BEntry) (src : String),
      ensure_guids entries src = entries.map (fun e =>
        if e.guid = "" then { e with guid := syntheticGuid src e.type e.id }
        else e)) ∧
    (∀ (entries : List BEntry) (src : String) (e : BEntry), e ∈ entries →
      (e.guid ≠ "" → e ∈ ensure_guids entries src) ∧
      (e.guid = "" →
        { e with guid := syntheticGuid src e.type e.id } ∈ ensure_guids entries src)) ∧
    (syntheticGuid "base" "Gun" 100 ≠ syntheticGuid "mapa" "Gun" 100 ∧
      syntheticGuid "base" "Gun" 100 ≠ syntheticGuid "base" "Food" 100 ∧
      syntheticGuid "base" "Gun" 100 ≠ syntheticGuid "base" "Gun" 101) := by
  have hlen : ∀ (s t : String) (i : Int), (syntheticGuid s t i).length = 32 := by
    intro s t i
    have h64 := sha256hexChars_length
      (utf8Bytes (s ++ ":" ++ t ++ ":" ++ pyStrOfInt i))
    simp [syntheticGuid, String.length, h64]
  refine ⟨hlen, ?_, ?_, fun _ _ => rfl, ?_, by decide, by decide, by decide⟩
  · intro s t i
    show (("00000" : String) ++ _).data.take 5 = _
    rw [String.data_append]
    rfl
  · intro s t i c hc
    have : c ∈ ("00000" : String).data ∨
        c ∈ (sha256hexChars
          (utf8Bytes (s ++ ":" ++ t ++ ":" ++ pyStrOfInt i))).take 27 := by
      simpa [syntheticGuid, String.data_append] using hc
    rcases this with h | h
    · fin_cases h <;> decide
    · exact sha256hexChars_hex _ c (List.mem_of_mem_take h)
  · intro entries src e he
    constructor
    · intro hne
      have : (if e.guid = "" then { e with guid := syntheticGuid src e.type e.id }
          else e) ∈ ensure_guids entries src :=
        List.mem_map_of_mem _ he
      rwa [if_neg hne] at this
    · intro hemp
      have : (if e.guid = "" then { e with guid := syntheticGuid src e.type e.id }
          else e) ∈ ensure_guids entries src :=
        List.mem_map_of_mem _ he
      rwa [if_pos hemp] at this

/-- An entry lacking a guid. -/
def c8e1 : BEntry :=
  { guid := "", type := "Gun", id := 100, name := "X",
    source_path := "Items/Guns/X" }

/-- An entry that already has a guid. -/
def c8e2 : BEntry :=
  { guid := "realguid123", type := "Gun", id := 7, name := "Y",
    source_path := "Items/Guns/Y" }

/-- The two-entry batch for the C8 witness. -/
def c8Entries : List BEntry := [c8e1, c8e2]

/-- C8, witness: the guid-assignment part applied to a concrete batch —
the guid-less entry receives exactly the synthetic id and the other
entry is unchanged. -/
theorem C8_witness :
    (c8e1 ∈ c8Entries ∧ c8e1.guid = "" ∧
      { c8e1 with guid := syntheticGuid "base" c8e1.type c8e1.id } ∈
        ensure_guids c8Entries "base") ∧
    (c8e2 ∈ c8Entries ∧ c8e2.guid ≠ "" ∧ c8e2 ∈ ensure_guids c8Entries "base") :=
  ⟨⟨by decide, by decide,
    (C8_synthetic_guid.2.2.2.2.1 c8Entries "base" c8e1 (by decide)).2 (by decide)⟩,
   ⟨by decide, by decide,
    (C8_synthetic_guid.2.2.2.2.1 c8Entries "base" c8e2 (by decide)).1 (by decide)⟩⟩

/-- A blueprint item reference as the crafting formatter sees it: a
string token, the object form (`ID` already passed through `str()`,
`Amount` already through `int()`, `Delete` as stored), or any other
value (skipped). -/
inductive CItem where
  | s (tok : String)
  | d (idStr : String) (amount : Option Int) (delete : Option Bool)
  | otherIt
deriving DecidableEq

/-- A blueprint as the crafting formatter reads it. -/
structure CBlueprint where
  name : String := ""
  inputs : List CItem := []
  outputs : List CItem := []
  skill : String := ""
  skill_level : Int := 0
  workstation_tags : List String := []
deriving DecidableEq

/-- A bundle entry as the crafting formatter reads it; `mapSpawnable`
models the late-bound `_map_spawnable` attribute (`getattr` default:
empty). -/
structure CEntry where
  guid : String := ""
  type : String := ""
  id : Int := 0
  name : String := ""
  rarity : String := ""
  source_path : String := ""
  blueprints : List CBlueprint := []
  mapSpawnable : List String := []
deriving DecidableEq

/-- A hex character of either case (`[0-9a-fA-F]`). -/
def isHexAny (c : Char) : Bool :=
  c.isDigit || ('a' ≤ c && c ≤ 'f') || ('A' ≤ c && c ≤ 'F')

/-- `_GUID_X_RE` from `models/blueprint.py`:
`^([0-9a-fA-F]{32})\s+x\s*(\d+)$`, returning the two groups. -/
def guidXMatch (l : List Char) : Option (String × Nat) :=
  let g := l.take 32
  if g.length = 32 ∧ g.all isHexAny then
    let rest := l.drop 32
    if rest.takeWhile isPySpace ≠ [] then
      match rest.dropWhile isPySpace with
      | 'x' :: rest3 =>
        let num := rest3.dropWhile isPySpace
        if num ≠ [] ∧ num.all Char.isDigit ∧ rest3.takeWhile isPySpace ++ num = rest3
        then some (String.mk g, digitsVal num) else none
      | _ => none
    else none
  else none

/-- `_BARE_GUID_RE` from `models/blueprint.py`: `^[0-9a-fA-F]{32}$`. -/
def bareGuid (l : List Char) : Bool := l.length = 32 && l.all isHexAny

/-- `_ID_X_RE` from `crafting_fmt.py`: `^(\d+)\s+x\s*(\d+)$`. -/
def idXMatch (l : List Char) : Option (Nat × Nat) :=
  let d := l.takeWhile Char.isDigit
  if d ≠ [] then
    let rest := (l.dropWhile Char.isDigit)
    if rest.takeWhile isPySpace ≠ [] then
      match rest.dropWhile isPySpace with
      | 'x' :: rest3 =>
        let num := rest3.dropWhile isPySpace
        if num ≠ [] ∧ num.all Char.isDigit ∧ rest3.takeWhile isPySpace ++ num = rest3
        then some (digitsVal d, digitsVal num) else none
      | _ => none
    else none
  else none

/-- `_BARE_ID_RE` from `crafting_fmt.py`: `^\d+$`. -/
def bareId (l : List Char) : Bool := !l.isEmpty && l.all Char.isDigit

/-- The uncaught errors of the crafting formatter: `valueError` is the
`int()` failure on a malformed `"this x ..."` quantity;
`attributeError` is the read of the undefined attribute
`entry.category_parts`. -/
inductive PyErr where
  | valueError
  | attributeError
deriving DecidableEq

/-- The numeric fallback of `_parse_item_ref` (`"ID x N"` then bare
`"ID"`, each only when `id_to_guid` is truthy and the lookup hits). -/
def parse_item_ref_numeric (tok : String) (id_to_guid : List (Int × String)) :
    String × Int × Bool :=
  let bare :=
    if bareId tok.data ∧ id_to_guid ≠ [] then
      let g := (assocLookup id_to_guid (digitsVal tok.data : Int)).getD ""
      if g ≠ "" then (g, (1 : Int), false) else ("", 0, false)
    else ("", 0, false)
  match idXMatch tok.data with
  | some (idn, qty) =>
    if id_to_guid ≠ [] then
      let g := (assocLookup id_to_guid (idn : Int)).getD ""
      if g ≠ "" then (g, (qty : Int), false) else bare
    else bare
  | none => bare

/-- `_parse_item_ref` from `crafting_fmt.py`: canonicalise one item
reference to `(guid, quantity, is_tool)`; unknown strings yield the
skip sentinel `("", 0, false)`; a `"this x ..."` token whose quantity is
not an integer raises (`int(count_str)`). -/
def parse_item_ref (item : CItem) (owner_guid : String)
    (id_to_guid : List (Int × String) := []) :
    Except PyErr (String × Int × Bool) :=
  match item with
  | .s tok =>
    if tok = "this" then .ok (pyLower owner_guid, 1, false)
    else if tok.data.take 7 = "this x ".data then
      let countStr := ((splitOnceChar 'x' tok.data).map Prod.snd).getD []
      match pyInt countStr with
      | some n => .ok (pyLower owner_guid, n, false)
      | none => .error .valueError
    else
      match guidXMatch tok.data with
      | some (g, n) => .ok (pyLower g, (n : Int), false)
      | none =>
        if bareGuid tok.data then .ok (pyLower tok, 1, false)
        else .ok (parse_item_ref_numeric tok id_to_guid)
  | .d idStr amount delete =>
    let amt := amount.getD 1
    let is_tool := delete = some false
    if pyLower idStr = "this" then .ok (pyLower owner_guid, amt, is_tool)
    else .ok (pyLower idStr, amt, is_tool)
  | .otherIt => .ok ("", 0, false)

/-- A node of the crafting graph. -/
structure CNode where
  id : String
  name : String
  type : String
  category : List String
  rarity : String
  maps : List String
deriving DecidableEq

/-- An edge of the crafting graph. -/
structure CEdge where
  source : String
  target : String
  type : String
  quantity : Int
  tool : Bool
  workstations : List String
  skill : String
  skillLevel : Int
  blueprintId : String
  byproduct : Bool
deriving DecidableEq

/-- Insert a string into a sorted list (for Python `sorted`). -/
def insertSorted (x : String) : List String → List String
  | [] => [x]
  | y :: ys => if x ≤ y then x :: y :: ys else y :: insertSorted x ys

/-- Python `sorted` on string lists. -/
def sortStrings (l : List String) : List String := l.foldr insertSorted []

/-- `_resolve_name` from `crafting_fmt.py`: a display name from the
guid map, or the bracketed 8-character prefix. -/
def resolve_name (guid : String) (guid_map : List (String × String)) : String :=
  let gl := pyLower guid
  let name := (assocLookup guid_map gl).getD ""
  if name ≠ "" then name else "[" ++ String.mk (gl.data.take 8) ++ "]"

/-- Python `str.startswith`. -/
def pyStartsWith (pre s : String) : Bool := s.data.take pre.data.length = pre.data

/-- `_is_entry_core` from `crafting_fmt.py`. -/
def is_entry_core (e : CEntry) (mapSourcePrefixes : List (String × List String)) : Bool :=
  if mapSourcePrefixes = [] then true
  else !(mapSourcePrefixes.any (fun p => p.2.any (fun pre => pyStartsWith pre e.source_path)))

/-- The access `entry.category_parts`: the attribute is referenced by
the formatters but defined on no model (the models define `category`),
so the faithful reading always raises `AttributeError`. -/
def category_parts_attr (_ : CEntry) : Except PyErr (List String) :=
  .error .attributeError

/-- Modelled from the spec: the `category_parts` attribute is missing
from src (only its callers exist); per the spec a node carries the
entry's category, and the models' `category` property is the source
path's directory segments without the last. -/
def category_parts_spec (e : CEntry) : Except PyErr (List String) :=
  .ok (if e.source_path = "" then []
    else
      let parts := pySplitSub "/" e.source_path
      if parts.length > 1 then parts.dropLast else [])

/-- The node built for an entry (owner node, and stub enrichment),
using the supplied `category_parts` access. -/
def entry_node (catParts : CEntry → Except PyErr (List String))
    (e : CEntry) (guid : String) (guid_map : List (String × String)) :
    Except PyErr CNode := do
  let cat ← catParts e
  .ok ⟨guid, (if e.name ≠ "" then e.name else resolve_name guid guid_map),
    e.type, cat, e.rarity, sortStrings e.mapSpawnable⟩

/-- `_ensure_stub_node` from `crafting_fmt.py`. -/
def ensure_stub_node (catParts : CEntry → Except PyErr (List String))
    (guid : String) (guid_map : List (String × String))
    (nodes : List (String × CNode))
    (entries_by_guid : List (String × CEntry)) :
    Except PyErr (List (String × CNode)) :=
  if (assocLookup nodes guid).isSome then .ok nodes
  else
    match assocLookup entries_by_guid guid with
    | some e => do
      let n ← entry_node catParts e guid guid_map
      .ok (assocSet nodes guid n)
    | none =>
      .ok (assocSet nodes guid ⟨guid, resolve_name guid guid_map, "", [], "", []⟩)

/-- The output-collection loop of `_resolve_craft_targets`: parse each
output in order and keep the non-empty guids. -/
def craft_targets_collect (owner_guid : String)
    (id_to_guid : List (Int × String)) : List CItem → Except PyErr (List String)
  | [] => .ok []
  | out :: rest => do
    let r ← parse_item_ref out owner_guid id_to_guid
    let ts ← craft_targets_collect owner_guid id_to_guid rest
    if r.1 ≠ "" then .ok (r.1 :: ts) else .ok ts

/-- `_resolve_craft_targets` from `crafting_fmt.py`. -/
def resolve_craft_targets (bp : CBlueprint) (owner_guid : String)
    (id_to_guid : List (Int × String) := []) : Except PyErr (List String) :=
  if bp.outputs = [] then .ok [owner_guid]
  else do
    let targets ← craft_targets_collect owner_guid id_to_guid bp.outputs
    if targets ≠ [] then .ok targets else .ok [owner_guid]

/-- The graph-builder state: the node dict (insertion-ordered, keyed by
guid) and the edge list. -/
structure GState where
  nodes : List (String × CNode) := []
  edges : List CEdge := []
deriving DecidableEq

/-- The salvage branch of `build_crafting_graph`: one edge
owner → output per resolvable output. -/
def salvage_loop (catParts : CEntry → Except PyErr (List String))
    (guid_map : List (String × String)) (entries_by_guid : List (String × CEntry))
    (id_to_guid : List (Int × String)) (owner_guid : String)
    (ws : List String) (bp : CBlueprint) (bp_id : String) :
    List CItem → GState → Except PyErr GState
  | [], st => .ok st
  | it :: rest, st => do
    let r ← parse_item_ref it owner_guid id_to_guid
    if r.1 = "" then
      salvage_loop catParts guid_map entries_by_guid id_to_guid owner_guid ws bp bp_id rest st
    else do
      let nodes' ← ensure_stub_node catParts r.1 guid_map st.nodes entries_by_guid
      salvage_loop catParts guid_map entries_by_guid id_to_guid owner_guid ws bp bp_id rest
        ⟨nodes', st.edges ++
          [⟨owner_guid, r.1, "salvage", r.2.1, r.2.2, ws, bp.skill, bp.skill_level,
            bp_id, false⟩]⟩

/-- The repair branch of `build_crafting_graph`: one edge
input → owner per resolvable input. -/
def repair_loop (catParts : CEntry → Except PyErr (List String))
    (guid_map : List (String × String)) (entries_by_guid : List (String × CEntry))
    (id_to_guid : List (Int × String)) (owner_guid : String)
    (ws : List String) (bp : CBlueprint) (bp_id : String) :
    List CItem → GState → Except PyErr GState
  | [], st => .ok st
  | it :: rest, st => do
    let r ← parse_item_ref it owner_guid id_to_guid
    if r.1 = "" then
      repair_loop catParts guid_map entries_by_guid id_to_guid owner_guid ws bp bp_id rest st
    else do
      let nodes' ← ensure_stub_node catParts r.1 guid_map st.nodes entries_by_guid
      repair_loop catParts guid_map entries_by_guid id_to_guid owner_guid ws bp bp_id rest
        ⟨nodes', st.edges ++
          [⟨r.1, owner_guid, "repair", r.2.1, r.2.2, ws, bp.skill, bp.skill_level,
            bp_id, false⟩]⟩

/-- The inner input loop of the craft branch: one edge input → target
per resolvable input, with the byproduct flag fixed by the target. -/
def craft_input_loop (catParts : CEntry → Except PyErr (List String))
    (guid_map : List (String × String)) (entries_by_guid : List (String × CEntry))
    (id_to_guid : List (Int × String)) (owner_guid : String)
    (ws : List String) (bp : CBlueprint) (bp_id : String)
    (target_guid : String) (is_byproduct : Bool) :
    List CItem → GState → Except PyErr GState
  | [], st => .ok st
  | it :: rest, st => do
    let r ← parse_item_ref it owner_guid id_to_guid
    if r.1 = "" then
      craft_input_loop catParts guid_map entries_by_guid id_to_guid owner_guid ws bp
        bp_id target_guid is_byproduct rest st
    else do
      let nodes' ← ensure_stub_node catParts r.1 guid_map st.nodes entries_by_guid
      craft_input_loop catParts guid_map entries_by_guid id_to_guid owner_guid ws bp
        bp_id target_guid is_byproduct rest
        ⟨nodes', st.edges ++
          [⟨r.1, target_guid, "craft", r.2.1, r.2.2, ws, bp.skill, bp.skill_level,
            bp_id, is_byproduct⟩]⟩

/-- The outer target loop of the craft branch: `is_byproduct` is
`len(targets) > 1 and target_guid != owner_guid`. -/
def craft_target_loop (catParts : CEntry → Except PyErr (List String))
    (guid_map : List (String × String)) (entries_by_guid : List (String × CEntry))
    (id_to_guid : List (Int × String)) (owner_guid : String)
    (ws : List String) (bp : CBlueprint) (bp_id : String)
    (targets : List String) :
    List String → GState → Except PyErr GState
  | [], st => .ok st
  | t :: ts, st => do
    let nodes' ← ensure_stub_node catParts t guid_map st.nodes entries_by_guid
    let is_byproduct := targets.length > 1 && t != owner_guid
    let st' ← craft_input_loop catParts guid_map entries_by_guid id_to_guid owner_guid
      ws bp bp_id t is_byproduct bp.inputs ⟨nodes', st.edges⟩
    craft_target_loop catParts guid_map entries_by_guid id_to_guid owner_guid ws bp
      bp_id targets ts st'

/-- A per-map crafting blacklist (`CraftingBlacklist`), restricted to
the field the builder reads. -/
structure CBlacklist where
  allow_core_blueprints : Bool := true
deriving DecidableEq

/-- The blueprint loop of `build_crafting_graph`: classify by name,
then emit the branch's edges; the counter numbers blueprints across the
whole build (`bp-<n>`). -/
def bp_loop (catParts : CEntry → Except PyErr (List String))
    (guid_map : List (String × String)) (entries_by_guid : List (String × CEntry))
    (id_to_guid : List (Int × String)) (owner_guid : String) :
    List CBlueprint → Nat × GState → Except PyErr (Nat × GState)
  | [], cst => .ok cst
  | bp :: bps, (counter, st) => do
    let counter' := counter + 1
    let bp_id := "bp-" ++ toString counter'
    let edge_type := if bp.name = "Salvage" then "salvage"
      else if bp.name = "Repair" then "repair" else "craft"
    let ws := bp.workstation_tags.map (fun tag => resolve_name tag guid_map)
    let st' ←
      if edge_type = "salvage" then
        salvage_loop catParts guid_map entries_by_guid id_to_guid owner_guid ws bp
          bp_id bp.outputs st
      else if edge_type = "repair" then
        repair_loop catParts guid_map entries_by_guid id_to_guid owner_guid ws bp
          bp_id bp.inputs st
      else do
        let targets ← resolve_craft_targets bp owner_guid id_to_guid
        craft_target_loop catParts guid_map entries_by_guid id_to_guid owner_guid ws
          bp bp_id targets targets st
    bp_loop catParts guid_map entries_by_guid id_to_guid owner_guid bps (counter', st')

/-- The per-map core-blueprint allowance check of
`build_crafting_graph` (a map without a blacklist entry implicitly
allows core blueprints). -/
def any_allows_core (crafting_blacklists : List (String × Option CBlacklist))
    (mapSourcePrefixes : List (String × List String)) : Bool :=
  let all_maps := mapSourcePrefixes.map Prod.fst
  let maps_without := all_maps.filter
    (fun m => !(crafting_blacklists.any (fun p => p.1 = m)))
  maps_without ≠ [] ||
    crafting_blacklists.any (fun p =>
      match p.2 with
      | none => true
      | some bl => bl.allow_core_blueprints)

/-- The entry loop of `build_crafting_graph`. -/
def entry_loop (catParts : CEntry → Except PyErr (List String))
    (guid_map : List (String × String)) (entries_by_guid : List (String × CEntry))
    (id_to_guid : List (Int × String))
    (crafting_blacklists : List (String × Option CBlacklist))
    (mapSourcePrefixes : List (String × List String)) :
    List CEntry → Nat × GState → Except PyErr (Nat × GState)
  | [], cst => .ok cst
  | e :: es, (counter, st) => do
    if e.blueprints = [] then
      entry_loop catParts guid_map entries_by_guid id_to_guid crafting_blacklists
        mapSourcePrefixes es (counter, st)
    else if crafting_blacklists ≠ [] ∧ is_entry_core e mapSourcePrefixes ∧
        !any_allows_core crafting_blacklists mapSourcePrefixes then
      entry_loop catParts guid_map entries_by_guid id_to_guid crafting_blacklists
        mapSourcePrefixes es (counter, st)
    else
      let owner_guid := pyLower e.guid
      if owner_guid = "" then
        entry_loop catParts guid_map entries_by_guid id_to_guid crafting_blacklists
          mapSourcePrefixes es (counter, st)
      else do
        let nodes' ←
          if (assocLookup st.nodes owner_guid).isSome then .ok st.nodes
          else do
            let n ← entry_node catParts e owner_guid guid_map
            .ok (assocSet st.nodes owner_guid n)
        let cst' ← bp_loop catParts guid_map entries_by_guid id_to_guid owner_guid
          e.blueprints (counter, ⟨nodes', st.edges⟩)
        entry_loop catParts guid_map entries_by_guid id_to_guid crafting_blacklists
          mapSourcePrefixes es cst'

/-- `build_crafting_graph` from `crafting_fmt.py`, parameterised over
the `category_parts` attribute access (the source reads
`entry.category_parts`, an attribute no model defines). -/
def build_crafting_graph_with (catParts : CEntry → Except PyErr (List String))
    (entries : List CEntry) (guid_map : List (String × String))
    (crafting_blacklists : List (String × Option CBlacklist) := [])
    (mapSourcePrefixes : List (String × List String) := []) :
    Except PyErr (List CNode × List CEdge) := do
  let id_to_guid := entries.foldl (fun m e =>
    if e.id ≠ 0 ∧ e.guid ≠ "" ∧ pyStartsWith "Items/" e.source_path
    then assocSet m e.id (pyLower e.guid) else m) ([] : List (Int × String))
  let entries_by_guid := entries.foldl (fun m e =>
    if e.guid ≠ "" then assocSet m (pyLower e.guid) e else m)
    ([] : List (String × CEntry))
  let r ← entry_loop catParts guid_map entries_by_guid id_to_guid
    crafting_blacklists mapSourcePrefixes entries (0, {})
  .ok ((r.2.nodes.map Prod.snd), r.2.edges)

/-- `build_crafting_graph` as written: the `entry.category_parts` read
raises `AttributeError` (the attribute is defined on no model; the
models define `category`). -/
def build_crafting_graph (entries : List CEntry)
    (guid_map : List (String × String))
    (crafting_blacklists : List (String × Option CBlacklist) := [])
    (mapSourcePrefixes : List (String × List String) := []) :
    Except PyErr (List CNode × List CEdge) :=
  build_crafting_graph_with category_parts_attr entries guid_map
    crafting_blacklists mapSourcePrefixes

/-- `build_crafting_graph` with the missing `category_parts` attribute
modelled from the spec (the entry's category, as the models' `category`
property computes it and the repo's tests expect). -/
def build_crafting_graph_spec (entries : List CEntry)
    (guid_map : List (String × String))
    (crafting_blacklists : List (String × Option CBlacklist) := [])
    (mapSourcePrefixes : List (String × List String) := []) :
    Except PyErr (List CNode × List CEdge) :=
  build_crafting_graph_with category_parts_spec entries guid_map
    crafting_blacklists mapSourcePrefixes

/-- The owner guid of the end-to-end scenario. -/
def c6OwnerGuid : String := "aaaaaaaaaaaaaaaaaaaaaaaaaaaaaaa1"

/-- The scrap guid of the end-to-end scenario. -/
def c6ScrapGuid : String := "bbbbbbbbbbbbbbbbbbbbbbbbbbbbbbb2"

/-- The owner entry with one `Salvage` blueprint, `inputs=["this"]`,
`outputs=["SCRAP x 3"]`. -/
def c6Entry : CEntry :=
  { guid := c6OwnerGuid, type := "Gun", name := "Owner Item", rarity := "Rare",
    source_path := "Items/Guns/Owner",
    blueprints := [{ name := "Salvage", inputs := [CItem.s "this"],
                     outputs := [CItem.s (c6ScrapGuid ++ " x 3")] }] }

/-- C6: on the salvage scenario the code as written raises
`AttributeError` (the node constructor reads `entry.category_parts`,
defined on no model — the models define `category`; the repo's own
crafting tests expect graphs to build), so the claimed graph is never
produced; with the missing attribute modelled from the spec, the build
yields exactly one edge `owner → scrap` of kind `salvage` with
quantity 3 and exactly the two nodes, and the `"this"` input yields no
self-loop edge. -/
theorem C6_salvage_scenario :
    build_crafting_graph [c6Entry] [] = .error .attributeError ∧
    build_crafting_graph_spec [c6Entry] [] = .ok
      ([⟨c6OwnerGuid, "Owner Item", "Gun", ["Items", "Guns"], "Rare", []⟩,
        ⟨c6ScrapGuid, "[bbbbbbbb]", "", [], "", []⟩],
       [⟨c6OwnerGuid, c6ScrapGuid, "salvage", 3, false, [], "", 0, "bp-1", false⟩]) := by
  exact ⟨rfl, rfl⟩

/-- C5, counterexample: `"this x 0"` is one of the claim's listed token
forms, yet canonicalisation returns quantity `0`, not an integer ≥ 1
(and `{Amount: 0}` behaves the same); the object form can even go
negative. -/
theorem C5_counterexample :
    parse_item_ref (CItem.s "this x 0") c6OwnerGuid [] =
      .ok (c6OwnerGuid, 0, false) ∧
    parse_item_ref (CItem.d c6ScrapGuid (some 0) none) c6OwnerGuid [] =
      .ok (c6ScrapGuid, 0, false) ∧
    ¬ (1 ≤ (0 : Int)) := by
  exact ⟨rfl, rfl, by decide⟩

/-- Explicit quantities of a reference token are positive: the `x N`
suffix of each string form, and the object form's `Amount`. -/
def itemQtyPositive : CItem → Bool
  | .s tok =>
    ((pyInt (((splitOnceChar 'x' tok.data).map Prod.snd).getD [])).all
      (fun n => 1 ≤ n)) &&
    ((guidXMatch tok.data).all (fun p => 1 ≤ p.2)) &&
    ((idXMatch tok.data).all (fun p => 1 ≤ p.2))
  | .d _ amount _ => decide (1 ≤ amount.getD 1)
  | .otherIt => true

theorem parse_item_ref_numeric_cases (tok : String) (m : List (Int × String)) :
    (parse_item_ref_numeric tok m).1 = "" ∨
    (parse_item_ref_numeric tok m).2.1 = 1 ∨
    (∃ p, idXMatch tok.data = some p ∧
      (parse_item_ref_numeric tok m).2.1 = (p.2 : Int)) := by
  have hbare : ∀ r : String × Int × Bool,
      r = (if bareId tok.data ∧ m ≠ [] then
        (if (assocLookup m ((digitsVal tok.data : Nat) : Int)).getD "" ≠ "" then
          ((assocLookup m ((digitsVal tok.data : Nat) : Int)).getD "", (1 : Int), false)
        else ("", 0, false))
      else ("", 0, false)) →
      r.1 = "" ∨ r.2.1 = 1 := by
    intro r hr
    by_cases h1 : bareId tok.data ∧ m ≠ []
    · rw [if_pos h1] at hr
      by_cases h2 : (assocLookup m ((digitsVal tok.data : Nat) : Int)).getD "" ≠ ""
      · rw [if_pos h2] at hr
        right; rw [hr]
      · rw [if_neg h2] at hr
        left; rw [hr]
    · rw [if_neg h1] at hr
      left; rw [hr]
  unfold parse_item_ref_numeric
  cases hx : idXMatch tok.data with
  | none =>
    dsimp only
    rcases hbare _ rfl with h | h
    · exact Or.inl h
    · exact Or.inr (Or.inl h)
  | some p =>
    obtain ⟨idn, qty⟩ := p
    dsimp only
    by_cases hm : m ≠ []
    · rw [if_pos hm]
      by_cases hgv : (assocLookup m ((idn : Nat) : Int)).getD "" ≠ ""
      · rw [if_pos hgv]
        exact Or.inr (Or.inr ⟨(idn, qty), rfl, rfl⟩)
      · rw [if_neg hgv]
        rcases hbare _ rfl with h | h
        · exact Or.inl h
        · exact Or.inr (Or.inl h)
    · rw [if_neg hm]
      rcases hbare _ rfl with h | h
      · exact Or.inl h
      · exact Or.inr (Or.inl h)

/-- C5, amended: canonicalisation yields quantity ≥ 1 for every
recognised reference token whose explicit quantity suffix (`x N`) and
object `Amount` are ≥ 1, whenever it yields a usable guid; forms
without an explicit quantity always get quantity 1.  (The counterexample
shows an explicit `x 0` or `Amount 0` passes straight through.) -/
theorem C5_quantity_ge_one (item : CItem) (owner : String)
    (m : List (Int × String)) (g : String) (q : Int) (t : Bool)
    (hpos : itemQtyPositive item = true)
    (hok : parse_item_ref item owner m = .ok (g, q, t)) (hg : g ≠ "") :
    1 ≤ q := by
  match item with
  | .otherIt =>
    simp only [parse_item_ref, Except.ok.injEq, Prod.mk.injEq] at hok
    exact absurd hok.1.symm hg
  | .d idStr amount delete =>
    simp only [itemQtyPositive, decide_eq_true_eq] at hpos
    simp only [parse_item_ref] at hok
    split at hok <;>
      (simp only [Except.ok.injEq, Prod.mk.injEq] at hok
       rw [← hok.2.1]
       exact hpos)
  | .s tok =>
    simp only [itemQtyPositive, Bool.and_eq_true] at hpos
    obtain ⟨⟨h1, h2⟩, h3⟩ := hpos
    simp only [parse_item_ref] at hok
    split at hok
    · simp only [Except.ok.injEq, Prod.mk.injEq] at hok
      omega
    · split at hok
      · split at hok
        · rename_i n heq
          simp only [Option.all, heq, decide_eq_true_eq] at h1
          simp only [Except.ok.injEq, Prod.mk.injEq] at hok
          omega
        · exact absurd hok (by simp)
      · split at hok
        · rename_i p heq
          rw [heq] at h2
          simp only [Option.all, decide_eq_true_eq] at h2
          simp only [Except.ok.injEq, Prod.mk.injEq] at hok
          obtain ⟨_, hq, _⟩ := hok
          rw [← hq]
          exact_mod_cast h2
        · split at hok
          · simp only [Except.ok.injEq, Prod.mk.injEq] at hok
            omega
          · simp only [Except.ok.injEq] at hok
            have hfst := congrArg Prod.fst hok
            have hsnd := congrArg (fun r => r.2.1) hok
            simp only at hfst hsnd
            rcases parse_item_ref_numeric_cases tok m with hc | hc | ⟨p, hp, hc⟩
            · rw [hfst] at hc
              exact absurd hc hg
            · rw [hsnd] at hc
              omega
            · rw [hsnd] at hc
              rw [hp] at h3
              simp only [Option.all, decide_eq_true_eq] at h3
              omega

/-- C5, witness: the amended theorem applied to the concrete token
`"<scrap-guid> x 2"`: quantities declared positive, a usable guid, and
quantity ≥ 1. -/
theorem C5_witness :
    itemQtyPositive (CItem.s (c6ScrapGuid ++ " x 2")) = true ∧
    parse_item_ref (CItem.s (c6ScrapGuid ++ " x 2")) c6OwnerGuid [] =
      .ok (c6ScrapGuid, 2, false) ∧
    (1 : Int) ≤ 2 :=
  ⟨by decide, rfl,
    C5_quantity_ge_one (CItem.s (c6ScrapGuid ++ " x 2")) c6OwnerGuid []
      c6ScrapGuid 2 false (by decide) rfl (by decide)⟩

/-- A craft blueprint whose outputs are `["this", "SCRAP x 2"]`: its
resolved target list is `[owner, scrap]` — only one distinct non-owner
output target. -/
def c4Blueprint : CBlueprint :=
  { name := "Craft", inputs := [CItem.s c6ScrapGuid],
    outputs := [CItem.s "this", CItem.s (c6ScrapGuid ++ " x 2")] }

/-- The owner entry carrying `c4Blueprint`. -/
def c4Entry : CEntry :=
  { guid := c6OwnerGuid, type := "Gun", name := "Owner Item", rarity := "Rare",
    source_path := "Items/Guns/Owner", blueprints := [c4Blueprint] }

/-- C4, counterexample: the blueprint's resolved targets are
`[owner, scrap]` — exactly one distinct non-owner output target — yet
the edge to scrap carries `byproduct = true` (the code tests
`len(targets) > 1`, counting the owner target, not the number of
distinct non-owner targets). -/
theorem C4_counterexample :
    resolve_craft_targets c4Blueprint c6OwnerGuid [] =
      .ok [c6OwnerGuid, c6ScrapGuid] ∧
    ([c6OwnerGuid, c6ScrapGuid].filter (· ≠ c6OwnerGuid)).dedup =
      [c6ScrapGuid] ∧
    build_crafting_graph_spec [c4Entry] [] = .ok
      ([⟨c6OwnerGuid, "Owner Item", "Gun", ["Items", "Guns"], "Rare", []⟩,
        ⟨c6ScrapGuid, "[bbbbbbbb]", "", [], "", []⟩],
       [⟨c6ScrapGuid, c6OwnerGuid, "craft", 1, false, [], "", 0, "bp-1", false⟩,
        ⟨c6ScrapGuid, c6ScrapGuid, "craft", 1, false, [], "", 0, "bp-1", true⟩]) := by
  refine ⟨rfl, by decide, rfl⟩

theorem craft_input_loop_edges (catP : CEntry → Except PyErr (List String))
    (gm : List (String × String)) (ebg : List (String × CEntry))
    (idg : List (Int × String)) (owner : String) (ws : List String)
    (bp : CBlueprint) (bpid target : String) (byp : Bool) :
    ∀ (items : List CItem) (st st' : GState),
      craft_input_loop catP gm ebg idg owner ws bp bpid target byp items st =
        .ok st' →
      ∀ e ∈ st'.edges, e ∈ st.edges ∨ (e.target = target ∧ e.byproduct = byp) := by
  intro items
  induction items with
  | nil =>
    intro st st' h e he
    simp only [craft_input_loop] at h
    cases h
    exact Or.inl he
  | cons it rest ih =>
    intro st st' h e he
    simp only [craft_input_loop] at h
    cases hp : parse_item_ref it owner idg with
    | error err => rw [hp] at h; simp [Bind.bind, Except.bind] at h
    | ok r =>
      rw [hp] at h
      simp only [Bind.bind, Except.bind] at h
      split at h
      · exact ih st st' h e he
      · cases hn : ensure_stub_node catP r.1 gm st.nodes ebg with
        | error err => rw [hn] at h; simp [Bind.bind, Except.bind] at h
        | ok nodes' =>
          rw [hn] at h
          simp only [Bind.bind, Except.bind] at h
          rcases ih _ _ h e he with hmem | hP
          · simp only [List.mem_append, List.mem_singleton] at hmem
            rcases hmem with hmem | rfl
            · exact Or.inl hmem
            · exact Or.inr ⟨rfl, rfl⟩
          · exact Or.inr hP

/-- C4, amended: an edge produced by the craft branch carries
`byproduct = true` exactly when the blueprint's resolved target list
(which may repeat targets and include the owner) has more than one
element and the edge's target is not the owner; in particular every
owner-targeted craft edge carries `false`, but a single distinct
non-owner output target next to an owner target is still flagged
`true`. -/
theorem C4_byproduct_rule (catP : CEntry → Except PyErr (List String))
    (gm : List (String × String)) (ebg : List (String × CEntry))
    (idg : List (Int × String)) (owner : String) (ws : List String)
    (bp : CBlueprint) (bpid : String) (targets : List String) :
    ∀ (ts : List String) (st st' : GState),
      craft_target_loop catP gm ebg idg owner ws bp bpid targets ts st = .ok st' →
      ∀ e ∈ st'.edges, e ∈ st.edges ∨
        e.byproduct = (decide (targets.length > 1) && e.target != owner) := by
  intro ts
  induction ts with
  | nil =>
    intro st st' h e he
    simp only [craft_target_loop] at h
    cases h
    exact Or.inl he
  | cons t rest ih =>
    intro st st' h e he
    simp only [craft_target_loop] at h
    cases hn : ensure_stub_node catP t gm st.nodes ebg with
    | error err => rw [hn] at h; simp [Bind.bind, Except.bind] at h
    | ok nodes' =>
      rw [hn] at h
      simp only [Bind.bind, Except.bind] at h
      cases hi : craft_input_loop catP gm ebg idg owner ws bp bpid t
          (decide (targets.length > 1) && t != owner) bp.inputs ⟨nodes', st.edges⟩ with
      | error err => rw [hi] at h; simp at h
      | ok st1 =>
        rw [hi] at h
        simp only at h
        rcases ih _ _ h e he with h1 | h1
        · rcases craft_input_loop_edges catP gm ebg idg owner ws bp bpid t _
            bp.inputs _ _ hi e h1 with h2 | h2
          · exact Or.inl h2
          · right
            rw [h2.2, h2.1]
        · exact Or.inr h1

/-- The concrete state produced by the craft branch on the C4
scenario. -/
def c4State : GState :=
  { nodes := [(c6OwnerGuid, ⟨c6OwnerGuid, "[aaaaaaaa]", "", [], "", []⟩),
              (c6ScrapGuid, ⟨c6ScrapGuid, "[bbbbbbbb]", "", [], "", []⟩)],
    edges := [⟨c6ScrapGuid, c6OwnerGuid, "craft", 1, false, [], "", 0, "bp-1", false⟩,
              ⟨c6ScrapGuid, c6ScrapGuid, "craft", 1, false, [], "", 0, "bp-1", true⟩] }

/-- The scrap-targeted edge of the C4 scenario. -/
def c4Edge2 : CEdge :=
  ⟨c6ScrapGuid, c6ScrapGuid, "craft", 1, false, [], "", 0, "bp-1", true⟩

/-- C4, witness: the amended rule applied to the concrete craft branch
run — the scrap edge's byproduct flag equals the code's formula. -/
theorem C4_witness :
    craft_target_loop category_parts_spec [] [] [] c6OwnerGuid [] c4Blueprint "bp-1"
      [c6OwnerGuid, c6ScrapGuid] [c6OwnerGuid, c6ScrapGuid] ⟨[], []⟩ = .ok c4State ∧
    c4Edge2 ∈ c4State.edges ∧
    (c4Edge2 ∈ (⟨[], []⟩ : GState).edges ∨
      c4Edge2.byproduct =
        (decide (([c6OwnerGuid, c6ScrapGuid] : List String).length > 1) &&
          c4Edge2.target != c6OwnerGuid)) :=
  ⟨rfl, by decide,
    C4_byproduct_rule category_parts_spec [] [] [] c6OwnerGuid [] c4Blueprint "bp-1"
      [c6OwnerGuid, c6ScrapGuid] [c6OwnerGuid, c6ScrapGuid] ⟨[], []⟩ c4State rfl
      c4Edge2 (by decide)⟩

/-- An entry whose craft blueprint holds the malformed token
`"this x z"`. -/
def c10Entry : CEntry :=
  { guid := c6OwnerGuid, type := "Gun", name := "Owner Item",
    source_path := "Items/Guns/Owner",
    blueprints := [{ name := "Craft", inputs := [CItem.s "this x z"],
                     outputs := [] }] }

/-- C10, counterexample: the token `"this x z"` matches none of the
recognised shapes, but instead of being silently dropped it raises —
`int("z")` in the `"this x "` branch of `_parse_item_ref` — so the
whole build fails rather than producing a graph without the token. -/
theorem C10_counterexample :
    parse_item_ref (CItem.s "this x z") c6OwnerGuid [] = .error .valueError ∧
    build_crafting_graph_spec [c10Entry] [] = .error .valueError := by
  exact ⟨rfl, rfl⟩

/-- Every node id in the dict is non-empty. -/
def nodesOk (nodes : List (String × CNode)) : Prop := ∀ p ∈ nodes, (p.2).id ≠ ""

/-- Every edge has non-empty endpoints. -/
def edgesOk (edges : List CEdge) : Prop := ∀ e ∈ edges, e.source ≠ "" ∧ e.target ≠ ""

/-- Both graph-state invariants. -/
def stOk (st : GState) : Prop := nodesOk st.nodes ∧ edgesOk st.edges

theorem assocSet_mem {α β : Type} [DecidableEq α] (m : List (α × β)) (k : α)
    (v : β) : ∀ p ∈ assocSet m k v, p ∈ m ∨ p = (k, v) := by
  induction m with
  | nil => intro p hp; simp [assocSet] at hp; simp [hp]
  | cons q rest ih =>
    intro p hp
    obtain ⟨qk, qv⟩ := q
    rw [assocSet] at hp
    split at hp
    · rcases List.mem_cons.mp hp with h | h
      · rename_i hqk
        right
        rw [h, hqk]
      · exact Or.inl (List.mem_cons_of_mem _ h)
    · rcases List.mem_cons.mp hp with h | h
      · exact Or.inl (h ▸ List.mem_cons_self _ _)
      · rcases ih p h with h2 | h2
        · exact Or.inl (List.mem_cons_of_mem _ h2)
        · exact Or.inr h2

theorem entry_node_id (catP : CEntry → Except PyErr (List String)) (e : CEntry)
    (guid : String) (gm : List (String × String)) (n : CNode)
    (h : entry_node catP e guid gm = .ok n) : n.id = guid := by
  simp only [entry_node, Bind.bind, Except.bind] at h
  cases hc : catP e with
  | error err => rw [hc] at h; simp at h
  | ok cat =>
    rw [hc] at h
    simp only [Except.ok.injEq] at h
    rw [← h]

theorem ensure_stub_node_ok (catP : CEntry → Except PyErr (List String))
    (guid : String) (gm : List (String × String))
    (nodes : List (String × CNode)) (ebg : List (String × CEntry))
    (nodes' : List (String × CNode)) (hg : guid ≠ "") (hn : nodesOk nodes)
    (h : ensure_stub_node catP guid gm nodes ebg = .ok nodes') :
    nodesOk nodes' := by
  rw [ensure_stub_node] at h
  split at h
  · cases h; exact hn
  · split at h
    · rename_i e he
      simp only [Bind.bind, Except.bind] at h
      cases hen : entry_node catP e guid gm with
      | error err => rw [hen] at h; simp at h
      | ok n =>
        rw [hen] at h
        simp only [Except.ok.injEq] at h
        intro p hp
        rcases assocSet_mem nodes guid n p (h ▸ hp) with h2 | h2
        · exact hn p h2
        · rw [h2]
          simpa [entry_node_id catP e guid gm n hen] using hg
    · simp only [Except.ok.injEq] at h
      intro p hp
      rcases assocSet_mem nodes guid _ p (h ▸ hp) with h2 | h2
      · exact hn p h2
      · rw [h2]
        exact hg

theorem salvage_loop_ok (catP : CEntry → Except PyErr (List String))
    (gm : List (String × String)) (ebg : List (String × CEntry))
    (idg : List (Int × String)) (owner : String) (ws : List String)
    (bp : CBlueprint) (bpid : String) (how : owner ≠ "") :
    ∀ (items : List CItem) (st st' : GState), stOk st →
      salvage_loop catP gm ebg idg owner ws bp bpid items st = .ok st' →
      stOk st' := by
  intro items
  induction items with
  | nil =>
    intro st st' hst h
    simp only [salvage_loop] at h
    cases h; exact hst
  | cons it rest ih =>
    intro st st' hst h
    simp only [salvage_loop] at h
    cases hp : parse_item_ref it owner idg with
    | error err => rw [hp] at h; simp [Bind.bind, Except.bind] at h
    | ok r =>
      rw [hp] at h
      simp only [Bind.bind, Except.bind] at h
      split at h
      · exact ih st st' hst h
      · rename_i hr
        cases hn : ensure_stub_node catP r.1 gm st.nodes ebg with
        | error err => rw [hn] at h; simp at h
        | ok nodes' =>
          rw [hn] at h
          simp only at h
          refine ih _ _ ⟨ensure_stub_node_ok catP r.1 gm st.nodes ebg nodes' hr
            hst.1 hn, ?_⟩ h
          intro e he
          rcases List.mem_append.mp he with h2 | h2
          · exact hst.2 e h2
          · rw [List.mem_singleton.mp h2]
            exact ⟨how, hr⟩

theorem repair_loop_ok (catP : CEntry → Except PyErr (List String))
    (gm : List (String × String)) (ebg : List (String × CEntry))
    (idg : List (Int × String)) (owner : String) (ws : List String)
    (bp : CBlueprint) (bpid : String) (how : owner ≠ "") :
    ∀ (items : List CItem) (st st' : GState), stOk st →
      repair_loop catP gm ebg idg owner ws bp bpid items st = .ok st' →
      stOk st' := by
  intro items
  induction items with
  | nil =>
    intro st st' hst h
    simp only [repair_loop] at h
    cases h; exact hst
  | cons it rest ih =>
    intro st st' hst h
    simp only [repair_loop] at h
    cases hp : parse_item_ref it owner idg with
    | error err => rw [hp] at h; simp [Bind.bind, Except.bind] at h
    | ok r =>
      rw [hp] at h
      simp only [Bind.bind, Except.bind] at h
      split at h
      · exact ih st st' hst h
      · rename_i hr
        cases hn : ensure_stub_node catP r.1 gm st.nodes ebg with
        | error err => rw [hn] at h; simp at h
        | ok nodes' =>
          rw [hn] at h
          simp only at h
          refine ih _ _ ⟨ensure_stub_node_ok catP r.1 gm st.nodes ebg nodes' hr
            hst.1 hn, ?_⟩ h
          intro e he
          rcases List.mem_append.mp he with h2 | h2
          · exact hst.2 e h2
          · rw [List.mem_singleton.mp h2]
            exact ⟨hr, how⟩

theorem craft_input_loop_ok (catP : CEntry → Except PyErr (List String))
    (gm : List (String × String)) (ebg : List (String × CEntry))
    (idg : List (Int × String)) (owner : String) (ws : List String)
    (bp : CBlueprint) (bpid target : String) (byp : Bool) (htg : target ≠ "") :
    ∀ (items : List CItem) (st st' : GState), stOk st →
      craft_input_loop catP gm ebg idg owner ws bp bpid target byp items st =
        .ok st' →
      stOk st' := by
  intro items
  induction items with
  | nil =>
    intro st st' hst h
    simp only [craft_input_loop] at h
    cases h; exact hst
  | cons it rest ih =>
    intro st st' hst h
    simp only [craft_input_loop] at h
    cases hp : parse_item_ref it owner idg with
    | error err => rw [hp] at h; simp [Bind.bind, Except.bind] at h
    | ok r =>
      rw [hp] at h
      simp only [Bind.bind, Except.bind] at h
      split at h
      · exact ih st st' hst h
      · rename_i hr
        cases hn : ensure_stub_node catP r.1 gm st.nodes ebg with
        | error err => rw [hn] at h; simp at h
        | ok nodes' =>
          rw [hn] at h
          simp only at h
          refine ih _ _ ⟨ensure_stub_node_ok catP r.1 gm st.nodes ebg nodes' hr
            hst.1 hn, ?_⟩ h
          intro e he
          rcases List.mem_append.mp he with h2 | h2
          · exact hst.2 e h2
          · rw [List.mem_singleton.mp h2]
            exact ⟨hr, htg⟩

theorem craft_target_loop_ok (catP : CEntry → Except PyErr (List String))
    (gm : List (String × String)) (ebg : List (String × CEntry))
    (idg : List (Int × String)) (owner : String) (ws : List String)
    (bp : CBlueprint) (bpid : String) (targets : List String) :
    ∀ (ts : List String), (∀ t ∈ ts, t ≠ "") →
      ∀ (st st' : GState), stOk st →
        craft_target_loop catP gm ebg idg owner ws bp bpid targets ts st =
          .ok st' →
        stOk st' := by
  intro ts
  induction ts with
  | nil =>
    intro _ st st' hst h
    simp only [craft_target_loop] at h
    cases h; exact hst
  | cons t rest ih =>
    intro hts st st' hst h
    have ht : t ≠ "" := hts t (List.mem_cons_self t rest)
    simp only [craft_target_loop, Bind.bind, Except.bind] at h
    cases hn : ensure_stub_node catP t gm st.nodes ebg with
    | error err => rw [hn] at h; simp at h
    | ok nodes' =>
      rw [hn] at h
      simp only at h
      cases hi : craft_input_loop catP gm ebg idg owner ws bp bpid t
          (decide (targets.length > 1) && t != owner) bp.inputs
          ⟨nodes', st.edges⟩ with
      | error err => rw [hi] at h; simp at h
      | ok st1 =>
        rw [hi] at h
        simp only at h
        have hst1 : stOk st1 := craft_input_loop_ok catP gm ebg idg owner ws bp
          bpid t _ ht bp.inputs ⟨nodes', st.edges⟩ st1
          ⟨ensure_stub_node_ok catP t gm st.nodes ebg nodes' ht hst.1 hn, hst.2⟩ hi
        exact ih (fun x hx => hts x (List.mem_cons_of_mem t hx)) st1 st' hst1 h

theorem craft_targets_collect_ne (owner : String) (idg : List (Int × String)) :
    ∀ (outs : List CItem) (res : List String),
      craft_targets_collect owner idg outs = .ok res → ∀ t ∈ res, t ≠ "" := by
  intro outs
  induction outs with
  | nil =>
    intro res hh
    cases hh
    intro t ht
    simp at ht
  | cons o rest ih =>
    intro res hh
    simp only [craft_targets_collect, Bind.bind, Except.bind] at hh
    cases hp : parse_item_ref o owner idg with
    | error err => rw [hp] at hh; simp at hh
    | ok r =>
      rw [hp] at hh
      simp only at hh
      cases hc : craft_targets_collect owner idg rest with
      | error err => rw [hc] at hh; simp at hh
      | ok ts =>
        rw [hc] at hh
        simp only at hh
        split at hh
        · rename_i hr
          cases hh
          intro t ht
          rcases List.mem_cons.mp ht with h2 | h2
          · rw [h2]; exact hr
          · exact ih _ hc t h2
        · cases hh
          exact ih _ hc

theorem resolve_craft_targets_ne (bp : CBlueprint) (owner : String)
    (idg : List (Int × String)) (ts : List String) (how : owner ≠ "")
    (h : resolve_craft_targets bp owner idg = .ok ts) : ∀ t ∈ ts, t ≠ "" := by
  rw [resolve_craft_targets] at h
  split at h
  · cases h
    intro t ht
    rw [List.mem_singleton.mp ht]
    exact how
  · simp only [Bind.bind, Except.bind] at h
    cases hf : craft_targets_collect owner idg bp.outputs with
    | error err => rw [hf] at h; simp at h
    | ok targets0 =>
      rw [hf] at h
      simp only at h
      split at h
      · cases h
        exact craft_targets_collect_ne owner idg bp.outputs _ hf
      · cases h
        intro t ht
        rw [List.mem_singleton.mp ht]
        exact how

theorem bp_loop_ok (catP : CEntry → Except PyErr (List String))
    (gm : List (String × String)) (ebg : List (String × CEntry))
    (idg : List (Int × String)) (owner : String) (how : owner ≠ "") :
    ∀ (bps : List CBlueprint) (cst cst' : Nat × GState), stOk cst.2 →
      bp_loop catP gm ebg idg owner bps cst = .ok cst' → stOk cst'.2 := by
  intro bps
  induction bps with
  | nil =>
    intro cst cst' hst h
    simp only [bp_loop] at h
    cases h; exact hst
  | cons bp rest ih =>
    intro cst cst' hst h
    obtain ⟨counter, st⟩ := cst
    simp only [bp_loop, Bind.bind, Except.bind] at h
    split at h
    · cases hs : salvage_loop catP gm ebg idg owner
          (bp.workstation_tags.map (fun tag => resolve_name tag gm)) bp
          ("bp-" ++ toString (counter + 1)) bp.outputs st with
      | error err => rw [hs] at h; simp at h
      | ok st1 =>
        rw [hs] at h
        simp only at h
        exact ih _ _ (salvage_loop_ok catP gm ebg idg owner _ bp _ how
          bp.outputs st st1 hst hs) h
    · split at h
      · cases hs : repair_loop catP gm ebg idg owner
            (bp.workstation_tags.map (fun tag => resolve_name tag gm)) bp
            ("bp-" ++ toString (counter + 1)) bp.inputs st with
        | error err => rw [hs] at h; simp at h
        | ok st1 =>
          rw [hs] at h
          simp only at h
          exact ih _ _ (repair_loop_ok catP gm ebg idg owner _ bp _ how
            bp.inputs st st1 hst hs) h
      · cases ht : resolve_craft_targets bp owner idg with
        | error err => rw [ht] at h; simp at h
        | ok targets =>
          rw [ht] at h
          simp only at h
          cases hc : craft_target_loop catP gm ebg idg owner
              (bp.workstation_tags.map (fun tag => resolve_name tag gm)) bp
              ("bp-" ++ toString (counter + 1)) targets targets st with
          | error err => rw [hc] at h; simp at h
          | ok st1 =>
            rw [hc] at h
            simp only at h
            exact ih _ _ (craft_target_loop_ok catP gm ebg idg owner _ bp _
              targets targets (resolve_craft_targets_ne bp owner idg targets
                how ht) st st1 hst hc) h

theorem entry_loop_ok (catP : CEntry → Except PyErr (List String))
    (gm : List (String × String)) (ebg : List (String × CEntry))
    (idg : List (Int × String))
    (bl : List (String × Option CBlacklist))
    (mp : List (String × List String)) :
    ∀ (entries : List CEntry) (cst cst' : Nat × GState), stOk cst.2 →
      entry_loop catP gm ebg idg bl mp entries cst = .ok cst' →
      stOk cst'.2 := by
  intro entries
  induction entries with
  | nil =>
    intro cst cst' hst h
    simp only [entry_loop] at h
    cases h; exact hst
  | cons e es ih =>
    intro cst cst' hst h
    obtain ⟨counter, st⟩ := cst
    simp only [entry_loop, Bind.bind, Except.bind] at h
    split at h
    · exact ih _ _ hst h
    · split at h
      · exact ih _ _ hst h
      · split at h
        · exact ih _ _ hst h
        · rename_i hbp hbl howner
          have how : pyLower e.guid ≠ "" := howner
          split at h
          · cases hb : bp_loop catP gm ebg idg (pyLower e.guid) e.blueprints
                (counter, ⟨st.nodes, st.edges⟩) with
            | error err => rw [hb] at h; simp at h
            | ok cst1 =>
              rw [hb] at h
              simp only at h
              exact ih _ _ (bp_loop_ok catP gm ebg idg (pyLower e.guid) how
                e.blueprints _ _ ⟨hst.1, hst.2⟩ hb) h
          · cases hen : entry_node catP e (pyLower e.guid) gm with
            | error err => rw [hen] at h; simp at h
            | ok n =>
              rw [hen] at h
              simp only at h
              have hnodes' : nodesOk (assocSet st.nodes (pyLower e.guid) n) := by
                intro p hp
                rcases assocSet_mem st.nodes (pyLower e.guid) n p hp with h2 | h2
                · exact hst.1 p h2
                · rw [h2]
                  simpa [entry_node_id catP e (pyLower e.guid) gm n hen]
                    using how
              cases hb : bp_loop catP gm ebg idg (pyLower e.guid) e.blueprints
                  (counter, ⟨assocSet st.nodes (pyLower e.guid) n, st.edges⟩) with
              | error err => rw [hb] at h; simp at h
              | ok cst1 =>
                rw [hb] at h
                simp only at h
                exact ih _ _ (bp_loop_ok catP gm ebg idg (pyLower e.guid) how
                  e.blueprints
                  (counter, ⟨assocSet st.nodes (pyLower e.guid) n, st.edges⟩)
                  _ ⟨hnodes', hst.2⟩ hb) h

theorem parse_item_ref_numeric_skip (tok : String) (idg : List (Int × String))
    (h5 : ∀ idn qty, idXMatch tok.data = some (idn, qty) →
      (assocLookup idg (idn : Int)).getD "" = "")
    (h6 : bareId tok.data = true →
      (assocLookup idg (digitsVal tok.data : Int)).getD "" = "") :
    parse_item_ref_numeric tok idg = ("", 0, false) := by
  simp only [parse_item_ref_numeric]
  have hbare : (if bareId tok.data ∧ idg ≠ [] then
      if (assocLookup idg (digitsVal tok.data : Int)).getD "" ≠ "" then
        ((assocLookup idg (digitsVal tok.data : Int)).getD "", (1 : Int), false)
      else ("", 0, false)
    else (("" : String), (0 : Int), false)) = ("", 0, false) := by
    by_cases hb : bareId tok.data ∧ idg ≠ []
    · rw [if_pos hb, if_neg]
      simp only [ne_eq, not_not]
      exact h6 hb.1
    · rw [if_neg hb]
  rw [hbare]
  cases hx : idXMatch tok.data with
  | none => rfl
  | some p =>
    obtain ⟨idn, qty⟩ := p
    simp only
    by_cases hg : idg ≠ []
    · rw [if_pos hg, if_neg]
      simp only [ne_eq, not_not]
      exact h5 idn qty hx
    · rw [if_neg hg]

/-- An entry whose craft blueprint holds the unrecognised token
`"banana"`. -/
def c10bEntry : CEntry :=
  { guid := c6OwnerGuid, type := "Gun", name := "Owner Item",
    source_path := "Items/Guns/Owner",
    blueprints := [{ name := "Craft", inputs := [CItem.s "banana"],
                     outputs := [] }] }

/-- The owner node of the C10 witness build. -/
def c10OwnerNode : CNode :=
  ⟨c6OwnerGuid, "Owner Item", "Gun", ["Items", "Guns"], "", []⟩

/-- C10, amended: an unrecognised string token that does not start with
`"this x "` canonicalises to the skip sentinel `("", 0, false)`, and the
builder never materialises the empty guid: every node of a successful
build has a non-empty id and every edge has non-empty endpoints, so such
a token contributes neither a node nor an edge. (A token that does start
with `"this x "` but carries a non-integer quantity instead raises — see
the counterexample.) -/
theorem C10_silent_drop :
    (∀ (tok owner_guid : String) (idg : List (Int × String)),
      tok ≠ "this" →
      tok.data.take 7 ≠ ("this x ").data →
      guidXMatch tok.data = none →
      bareGuid tok.data = false →
      (∀ idn qty, idXMatch tok.data = some (idn, qty) →
        (assocLookup idg (idn : Int)).getD "" = "") →
      (bareId tok.data = true →
        (assocLookup idg (digitsVal tok.data : Int)).getD "" = "") →
      parse_item_ref (CItem.s tok) owner_guid idg = .ok ("", 0, false)) ∧
    (∀ (catP : CEntry → Except PyErr (List String)) (entries : List CEntry)
      (gm : List (String × String)) (bl : List (String × Option CBlacklist))
      (mp : List (String × List String)) (nodes : List CNode)
      (edges : List CEdge),
      build_crafting_graph_with catP entries gm bl mp = .ok (nodes, edges) →
      (∀ n ∈ nodes, n.id ≠ "") ∧
      (∀ e ∈ edges, e.source ≠ "" ∧ e.target ≠ "")) := by
  constructor
  · intro tok owner idg h1 h2 h3 h4 h5 h6
    simp only [parse_item_ref]
    rw [if_neg h1, if_neg h2, h3]
    simp only
    rw [if_neg (by simp [h4])]
    rw [parse_item_ref_numeric_skip tok idg h5 h6]
  · intro catP entries gm bl mp nodes edges h
    simp only [build_crafting_graph_with, Bind.bind, Except.bind] at h
    split at h
    · exact Except.noConfusion h
    · rename_i r hr
      cases h
      have hst := entry_loop_ok catP gm _ _ bl mp entries _ r
        ⟨fun p hp => absurd hp (List.not_mem_nil p),
         fun e he => absurd he (List.not_mem_nil e)⟩ hr
      refine ⟨?_, hst.2⟩
      intro n hn
      rcases List.mem_map.mp hn with ⟨p, hp, hpn⟩
      exact hpn ▸ hst.1 p hp

/-- C10, witness: the token `"banana"` canonicalises to the skip
sentinel, and the build of an entry carrying it succeeds with exactly
the owner node — whose id is non-empty — and no edges. -/
theorem C10_witness :
    parse_item_ref (CItem.s "banana") c6OwnerGuid [] = .ok ("", 0, false) ∧
    c10OwnerNode.id ≠ "" := by
  constructor
  · exact C10_silent_drop.1 "banana" c6OwnerGuid []
      (by decide) (by decide) rfl rfl
      (by intro idn qty h
          rw [show idXMatch ("banana").data = none from rfl] at h
          exact Option.noConfusion h)
      (by intro h; exact absurd h (by decide))
  · exact (C10_silent_drop.2 category_parts_spec [c10bEntry] [] [] []
      [c10OwnerNode] [] rfl).1 c10OwnerNode (List.mem_singleton.mpr rfl)
